import Mathlib

/-!
Verification of the order-reconciliation endpoint
(PUT /orders-by-number/:order_no) of the Castolin backend.

The development shallowly embeds the two route handlers
(src/test.js lines 1244-1600 and src/routes/orders.js lines 225-384)
together with the transaction executor of the Oracle service
(src/unnamed/part_000, `executeTransaction`).  JavaScript objects are
modelled as association lists of field name to value, database rows as a
record with the exact column set used by the handlers' INSERT statements,
and the database as a list of rows plus a fresh-id counter.  Each SQL
statement issued by a handler is mirrored by a pure state transition and
recorded in a trace, and a thrown JavaScript error is mirrored by an
`Except.error`; the enclosing try/catch with `connection.rollback()` is
mirrored by returning the pre-call database on every error.
-/

set_option maxRecDepth 4000

/-- A JavaScript value as the handlers use them: a string, a number, or
`null`.  An absent (`undefined`) field is modelled by the absence of the
key from an association list, never by a `Value`. -/
inductive Value where
  | str (s : String)
  | num (n : Int)
  | null
deriving DecidableEq, Repr

namespace Value

/-- JavaScript truthiness of a present value: `null`, `""` and `0` are
falsy, everything else is truthy. -/
def truthy : Value → Bool
  | .str s => !(s = "")
  | .num n => !(n = 0)
  | .null => false

end Value

/-- A submitted line item of the request body.  `id` is `none` when the
JSON had no `id` (or `null`); `deleted` is the `_deleted` flag; `fields`
are all remaining properties in object-key order (destructuring
`const \x7b id, _deleted, ...fields \x7d` strips the first two). -/
structure Item where
  id : Option Nat
  deleted : Bool
  fields : List (String × Value)
deriving DecidableEq, Repr

namespace Item

/-- Field access `item[k]`: `some v` when the key is present (possibly
with value `null`), `none` when it is `undefined`. -/
def getField (i : Item) (k : String) : Option Value :=
  (i.fields.find? (fun kv => kv.1 = k)).map (·.2)

/-- JavaScript truthiness of `item.id`: absent, `null` and `0` are falsy. -/
def hasId (i : Item) : Bool :=
  match i.id with
  | some n => !(n = 0)
  | none => false

/-- The sort key `(a.id || 0)` used by `allItems.sort`. -/
def idKey (i : Item) : Nat := i.id.getD 0

/-- `item[k] || d`: the field's value when present and truthy, else `d`. -/
def orDefault (i : Item) (k : String) (d : Value) : Value :=
  match i.getField k with
  | some v => if v.truthy then v else d
  | none => d

end Item

/-- A persisted row of the `orders` table, with exactly the columns the
handlers read and write.  `id` is the generated numeric key, `order_no`
the business key; every other column holds a `Value`. -/
structure Row where
  id : Nat
  order_no : String
  voucher_type : Value
  order_date : Value
  customer_code : Value
  customer_name : Value
  executive : Value
  role : Value
  status : Value
  item_code : Value
  item_name : Value
  hsn : Value
  gst : Value
  sgst : Value
  cgst : Value
  igst : Value
  delivery_date : Value
  delivery_mode : Value
  transporter_name : Value
  quantity : Value
  uom : Value
  rate : Value
  amount : Value
  net_rate : Value
  gross_amount : Value
  disc_percentage : Value
  disc_amount : Value
  spl_disc_percentage : Value
  spl_disc_amount : Value
  total_quantity : Value
  total_amount : Value
  total_amount_without_tax : Value
  total_sgst_amount : Value
  total_cgst_amount : Value
  total_igst_amount : Value
  remarks : Value
deriving DecidableEq, Repr

/-- The fourteen order-level ("common") fields that test.js lists in
`commonFields` and propagates to every row of the order. -/
structure Common where
  voucher_type : Value
  order_date : Value
  customer_code : Value
  customer_name : Value
  executive : Value
  role : Value
  status : Value
  total_quantity : Value
  total_amount : Value
  total_amount_without_tax : Value
  total_sgst_amount : Value
  total_cgst_amount : Value
  total_igst_amount : Value
  remarks : Value
deriving DecidableEq, Repr

/-- Projection of a row onto its order-level fields. -/
def commonsOf (r : Row) : Common :=
  ⟨r.voucher_type, r.order_date, r.customer_code, r.customer_name,
   r.executive, r.role, r.status, r.total_quantity, r.total_amount,
   r.total_amount_without_tax, r.total_sgst_amount, r.total_cgst_amount,
   r.total_igst_amount, r.remarks⟩

/-- The `UPDATE orders SET voucher_type = .., ... WHERE order_no = ..`
header-propagation statement applied to one row. -/
def setCommon (c : Common) (r : Row) : Row :=
  { r with
    voucher_type := c.voucher_type
    order_date := c.order_date
    customer_code := c.customer_code
    customer_name := c.customer_name
    executive := c.executive
    role := c.role
    status := c.status
    total_quantity := c.total_quantity
    total_amount := c.total_amount
    total_amount_without_tax := c.total_amount_without_tax
    total_sgst_amount := c.total_sgst_amount
    total_cgst_amount := c.total_cgst_amount
    total_igst_amount := c.total_igst_amount
    remarks := c.remarks }

/-- One dynamic `SET k = v` assignment of an UPDATE statement.  Only the
columns of the table can be named; an unknown name leaves the row as it
is (the handlers' allow-lists prevent that case from being issued). -/
def applyField (r : Row) (k : String) (v : Value) : Row :=
  match k with
  | "voucher_type" => { r with voucher_type := v }
  | "order_date" => { r with order_date := v }
  | "customer_code" => { r with customer_code := v }
  | "customer_name" => { r with customer_name := v }
  | "executive" => { r with executive := v }
  | "role" => { r with role := v }
  | "status" => { r with status := v }
  | "item_code" => { r with item_code := v }
  | "item_name" => { r with item_name := v }
  | "hsn" => { r with hsn := v }
  | "gst" => { r with gst := v }
  | "sgst" => { r with sgst := v }
  | "cgst" => { r with cgst := v }
  | "igst" => { r with igst := v }
  | "delivery_date" => { r with delivery_date := v }
  | "delivery_mode" => { r with delivery_mode := v }
  | "transporter_name" => { r with transporter_name := v }
  | "quantity" => { r with quantity := v }
  | "uom" => { r with uom := v }
  | "rate" => { r with rate := v }
  | "amount" => { r with amount := v }
  | "net_rate" => { r with net_rate := v }
  | "gross_amount" => { r with gross_amount := v }
  | "disc_percentage" => { r with disc_percentage := v }
  | "disc_amount" => { r with disc_amount := v }
  | "spl_disc_percentage" => { r with spl_disc_percentage := v }
  | "spl_disc_amount" => { r with spl_disc_amount := v }
  | "total_quantity" => { r with total_quantity := v }
  | "total_amount" => { r with total_amount := v }
  | "total_amount_without_tax" => { r with total_amount_without_tax := v }
  | "total_sgst_amount" => { r with total_sgst_amount := v }
  | "total_cgst_amount" => { r with total_cgst_amount := v }
  | "total_igst_amount" => { r with total_igst_amount := v }
  | "remarks" => { r with remarks := v }
  | _ => r

/-- A whole `SET` clause: the filtered field list applied left to right. -/
def applyFields (r : Row) (kvs : List (String × Value)) : Row :=
  kvs.foldl (fun acc kv => applyField acc kv.1 kv.2) r

/-- The database: the `orders` table plus the identity-column counter
that generates `RETURNING id` values. -/
structure Db where
  rows : List Row
  nextId : Nat
deriving DecidableEq, Repr

/-- One SQL statement as executed on the connection, recorded for the
trace of a call. -/
inductive Stmt where
  | countByOrder (key : String)
  | verifyDeleteIds (ids : List Nat) (key : String)
  | deleteByIds (ids : List Nat) (key : String)
  | checkItemOrder (id : Nat)
  | updateById (id : Nat) (fields : List (String × Value)) (key : String)
  | insertNewRow (r : Row)
  | propagateCommon (c : Common) (key : String)
  | selectByOrder (key : String)
deriving DecidableEq, Repr

/-- The errors the handlers throw or answer with. -/
inductive Err where
  | orderNoRequired
  | noData
  | orderMissing (key : String)
  | cannotDelete (missing : List Nat) (key : String)
  | itemNotFound (id : Nat)
  | crossOrder (id : Nat) (found : String) (requested : String)
  | noRecordForUpdate (id : Nat) (key : String)
deriving DecidableEq, Repr

/-- The `operations` counters of the success response. -/
structure Counts where
  inserted : Nat
  updated : Nat
  deleted : Nat
deriving DecidableEq, Repr

/-- The success payload: counters plus the freshly read rows of the
order, sorted by ascending id. -/
structure Outcome where
  counts : Counts
  rows : List Row
deriving DecidableEq, Repr

instance {ε α : Type} [DecidableEq ε] [DecidableEq α] :
    DecidableEq (Except ε α) := fun a b =>
  match a, b with
  | .ok x, .ok y =>
    if h : x = y then .isTrue (by rw [h])
    else .isFalse (by intro he; cases he; exact h rfl)
  | .error x, .error y =>
    if h : x = y then .isTrue (by rw [h])
    else .isFalse (by intro he; cases he; exact h rfl)
  | .ok _, .error _ => .isFalse (by intro he; cases he)
  | .error _, .ok _ => .isFalse (by intro he; cases he)

/-- The full effect of one call: the database after the call (the
pre-call database whenever an error was answered, mirroring rollback),
the statements executed on a successful run, and the response. -/
structure RunResult where
  db : Db
  trace : List Stmt
  result : Except Err Outcome
deriving DecidableEq, Repr

section StableSort

variable {α : Type} (key : α → Nat)

/-- Insert `x` after every element whose key is `≤ key x`: the placement
a stable sort gives the latest-seen element. -/
def insSorted (x : α) : List α → List α
  | [] => [x]
  | y :: ys => if key y ≤ key x then y :: insSorted x ys else x :: y :: ys

/-- Left-to-right insertion sort; `acc` is the sorted prefix. -/
def sortAux : List α → List α → List α
  | acc, [] => acc
  | acc, x :: xs => sortAux (insSorted key x acc) xs

/-- `arr.sort((a, b) => keyA - keyB)`: every stable sort by a fixed key
produces the same list, so insertion sort models the engine's sort. -/
def sortByKey (l : List α) : List α := sortAux key [] l

/-- Sortedness by the key, non-strict. -/
def KeySorted (l : List α) : Prop := l.Pairwise (fun a b => key a ≤ key b)

theorem mem_insSorted {x b : α} {l : List α} :
    b ∈ insSorted key x l ↔ b = x ∨ b ∈ l := by
  induction l with
  | nil => simp [insSorted]
  | cons y ys ih =>
    by_cases hk : key y ≤ key x
    · simp only [insSorted, if_pos hk, List.mem_cons, ih]
      tauto
    · simp only [insSorted, if_neg hk, List.mem_cons]

theorem insSorted_keySorted {x : α} {l : List α} (h : KeySorted key l) :
    KeySorted key (insSorted key x l) := by
  induction l with
  | nil => simp [insSorted, KeySorted]
  | cons y ys ih =>
    rcases (List.pairwise_cons.mp h) with ⟨hy, hys⟩
    by_cases hk : key y ≤ key x
    · rw [insSorted, if_pos hk]
      refine List.pairwise_cons.mpr ⟨?_, ih hys⟩
      intro b hb
      rcases (mem_insSorted key).mp hb with rfl | hb'
      · exact hk
      · exact hy b hb'
    · rw [insSorted, if_neg hk]
      push_neg at hk
      refine List.pairwise_cons.mpr ⟨?_, h⟩
      intro b hb
      rcases List.mem_cons.mp hb with rfl | hb'
      · exact Nat.le_of_lt hk
      · exact Nat.le_trans (Nat.le_of_lt hk) (hy b hb')

theorem insSorted_perm (x : α) (l : List α) :
    List.Perm (insSorted key x l) (x :: l) := by
  induction l with
  | nil => simp [insSorted]
  | cons y ys ih =>
    by_cases hk : key y ≤ key x
    · rw [insSorted, if_pos hk]
      exact (ih.cons y).trans (List.Perm.swap x y ys)
    · rw [insSorted, if_neg hk]

theorem sortAux_perm (l : List α) :
    ∀ acc : List α, List.Perm (sortAux key acc l) (acc ++ l) := by
  induction l with
  | nil => intro acc; simp [sortAux]
  | cons x xs ih =>
    intro acc
    rw [sortAux]
    refine (ih (insSorted key x acc)).trans ?_
    have h1 : List.Perm (insSorted key x acc ++ xs) ((x :: acc) ++ xs) :=
      (insSorted_perm key x acc).append_right xs
    have h2 : List.Perm ((x :: acc) ++ xs) (acc ++ x :: xs) := by
      simpa using (@List.perm_middle _ x acc xs).symm
    exact h1.trans h2

theorem sortByKey_perm (l : List α) : List.Perm (sortByKey key l) l :=
  sortAux_perm key l []

/-- If `x`'s key is strictly below every key in `l`, insertion puts it
in front. -/
theorem insSorted_of_lt {x : α} {l : List α}
    (h : ∀ b ∈ l, key x < key b) : insSorted key x l = x :: l := by
  cases l with
  | nil => rfl
  | cons y ys =>
    have hk : ¬ key y ≤ key x := by
      have := h y (by simp)
      omega
    rw [insSorted, if_neg hk]

/-- If `x`'s key dominates every key in `l`, insertion appends it. -/
theorem insSorted_of_le {x : α} {l : List α}
    (h : ∀ b ∈ l, key b ≤ key x) : insSorted key x l = l ++ [x] := by
  induction l with
  | nil => rfl
  | cons y ys ih =>
    rw [insSorted, if_pos (h y (by simp)),
      ih (fun b hb => h b (by simp [hb]))]
    rfl

/-- Filtering commutes with stable insertion into a sorted list. -/
theorem filter_insSorted (p : α → Bool) {x : α} {l : List α}
    (h : KeySorted key l) :
    (insSorted key x l).filter p =
      if p x then insSorted key x (l.filter p) else l.filter p := by
  induction l with
  | nil => cases hpx : p x <;> simp [insSorted, hpx]
  | cons y ys ih =>
    rcases (List.pairwise_cons.mp h) with ⟨hy, hys⟩
    by_cases hk : key y ≤ key x
    · cases hpx : p x
      · cases hpy : p y <;>
          simp [insSorted, hk, List.filter_cons, hpx, hpy, ih hys]
      · cases hpy : p y <;>
          simp [insSorted, hk, List.filter_cons, hpx, hpy, ih hys]
    · push_neg at hk
      cases hpx : p x
      · simp [insSorted, Nat.not_le_of_lt hk, List.filter_cons, hpx]
      · have hlt : ∀ b ∈ (y :: ys).filter p, key x < key b := by
          intro b hb
          have hmem := (List.mem_filter.mp hb).1
          rcases List.mem_cons.mp hmem with rfl | hb'
          · exact hk
          · exact Nat.lt_of_lt_of_le hk (hy b hb')
        have hins : insSorted key x ((y :: ys).filter p) =
            x :: (y :: ys).filter p := insSorted_of_lt key hlt
        rw [insSorted, if_neg (Nat.not_le_of_lt hk), if_pos rfl, hins,
          List.filter_cons, if_pos hpx]

theorem sortAux_keySorted (l : List α) :
    ∀ acc : List α, KeySorted key acc → KeySorted key (sortAux key acc l) := by
  induction l with
  | nil => intro acc h; simpa [sortAux] using h
  | cons x xs ih =>
    intro acc h
    rw [sortAux]
    exact ih (insSorted key x acc) (insSorted_keySorted key h)

theorem sortByKey_keySorted (l : List α) : KeySorted key (sortByKey key l) :=
  sortAux_keySorted key l [] (by simp [KeySorted])

theorem filter_sortAux (p : α → Bool) (l : List α) :
    ∀ acc : List α, KeySorted key acc →
      (sortAux key acc l).filter p =
        sortAux key (acc.filter p) (l.filter p) := by
  induction l with
  | nil => intro acc _; simp [sortAux]
  | cons x xs ih =>
    intro acc h
    rw [sortAux]
    rw [ih (insSorted key x acc) (insSorted_keySorted key h),
      filter_insSorted key p h]
    cases hpx : p x
    · simp [List.filter_cons, hpx, sortAux]
    · simp [List.filter_cons, hpx, sortAux]

/-- Stable sorting commutes with every filter. -/
theorem filter_sortByKey (p : α → Bool) (l : List α) :
    (sortByKey key l).filter p = sortByKey key (l.filter p) := by
  simpa [sortByKey] using
    filter_sortAux key p l [] (by simp [KeySorted])

/-- A list whose keys are all zero is left untouched by the sort:
stability keeps the submitted order. -/
theorem sortByKey_of_zero {l : List α} (h : ∀ b ∈ l, key b = 0) :
    sortByKey key l = l := by
  suffices haux : ∀ (l acc : List α), (∀ b ∈ acc, key b = 0) →
      (∀ b ∈ l, key b = 0) → sortAux key acc l = acc ++ l by
    simpa using haux l [] (by simp) h
  clear h
  intro m
  induction m with
  | nil => intro acc _ _; simp [sortAux]
  | cons a as ih =>
    intro acc hacc hl
    have ha0 : key a = 0 := hl a (by simp)
    have hacc' : ∀ b ∈ acc ++ [a], key b = 0 := by
      intro b hb
      rcases List.mem_append.mp hb with h1 | h1
      · exact hacc b h1
      · simp at h1; subst h1; exact ha0
    rw [sortAux, insSorted_of_le key (fun b hb => by
        simp [hacc b hb, ha0]),
      ih (acc ++ [a]) hacc' (fun b hb => hl b (by simp [hb]))]
    simp

theorem length_sortByKey (l : List α) : (sortByKey key l).length = l.length :=
  (sortByKey_perm key l).length_eq

theorem mem_sortByKey {b : α} {l : List α} : b ∈ sortByKey key l ↔ b ∈ l :=
  (sortByKey_perm key l).mem_iff

end StableSort

/-- JavaScript `.trim()`: strip leading and trailing whitespace
(executable model of the blank-key check). -/
def jsTrim (s : String) : String :=
  ⟨((s.data.dropWhile Char.isWhitespace).reverse.dropWhile
      Char.isWhitespace).reverse⟩

namespace TestHandler

/-! Embedding of `app.put("/orders-by-number/:order_no")`
(src/test.js lines 1244-1600). -/

/-- `allItems.filter(item => !item.id && !item._deleted)`. -/
def insPred (i : Item) : Bool := !i.hasId && !i.deleted

/-- `allItems.filter(item => item.id && !item._deleted)`. -/
def updPred (i : Item) : Bool := i.hasId && !i.deleted

/-- `allItems.filter(item => item._deleted && item.id)`. -/
def delPred (i : Item) : Bool := i.deleted && i.hasId

/-- `allItems.filter(item => !item._deleted)`. -/
def validPred (i : Item) : Bool := !i.deleted

/-- `[...req.body].sort((a, b) => (a.id || 0) - (b.id || 0))`. -/
def sortItems (l : List Item) : List Item := sortByKey Item.idKey l

/-- The update allow-list of test.js (lines 1370-1378). -/
def allowedFields : List String :=
  ["status", "disc_percentage", "disc_amount", "spl_disc_percentage",
   "spl_disc_amount", "net_rate", "gross_amount", "total_quantity",
   "total_amount", "total_amount_without_tax", "remarks", "quantity",
   "delivery_date", "delivery_mode", "transporter_name",
   "total_sgst_amount", "total_cgst_amount", "total_igst_amount",
   "sgst", "cgst", "igst", "gst", "hsn", "rate", "amount", "uom",
   "item_code", "item_name", "order_date"]

/-- `defaultOrderDetails` (lines 1294-1309); `today` stands for
`new Date().toISOString().split('T')[0]`. -/
def defaultOrderDetails (today : Value) : Common :=
  { voucher_type := .str "Sales Order"
    order_date := today
    customer_code := .str ""
    customer_name := .str ""
    executive := .str ""
    role := .str ""
    status := .str "pending"
    total_quantity := .num 0
    total_amount := .num 0
    total_amount_without_tax := .num 0
    total_sgst_amount := .num 0
    total_cgst_amount := .num 0
    total_igst_amount := .num 0
    remarks := .str "" }

/-- `commonOrderDetails[field] = priorityItem[field]` for one field
(`undefined` keeps the default, any present value — even `null` or a
falsy one — overrides it). -/
def overlay (p : Item) (k : String) (d : Value) : Value :=
  (p.getField k).getD d

/-- Steps at lines 1311-1330: pick the priority item (first non-deleted
item with a truthy id, else the first non-deleted item) and overlay its
present common fields onto the defaults. -/
def computeCommon (today : Value) (allItems : List Item) : Common :=
  let valid := allItems.filter validPred
  match valid with
  | [] => defaultOrderDetails today
  | v :: vs =>
    let p := ((v :: vs).find? Item.hasId).getD v
    let d := defaultOrderDetails today
    { voucher_type := overlay p "voucher_type" d.voucher_type
      order_date := overlay p "order_date" d.order_date
      customer_code := overlay p "customer_code" d.customer_code
      customer_name := overlay p "customer_name" d.customer_name
      executive := overlay p "executive" d.executive
      role := overlay p "role" d.role
      status := overlay p "status" d.status
      total_quantity := overlay p "total_quantity" d.total_quantity
      total_amount := overlay p "total_amount" d.total_amount
      total_amount_without_tax :=
        overlay p "total_amount_without_tax" d.total_amount_without_tax
      total_sgst_amount := overlay p "total_sgst_amount" d.total_sgst_amount
      total_cgst_amount := overlay p "total_cgst_amount" d.total_cgst_amount
      total_igst_amount := overlay p "total_igst_amount" d.total_igst_amount
      remarks := overlay p "remarks" d.remarks }

/-- The row predicate of `WHERE id IN (..) AND order_no = ..`. -/
def delMatch (ids : List Nat) (key : String) (r : Row) : Bool :=
  ids.contains r.id && decide (r.order_no = key)

/-- Deletion step (lines 1333-1366): when the order exists, verify the
ids with one SELECT and fail naming the missing ones on a count
mismatch; then one DELETE scoped to the order. -/
def deleteIds (toDelete : List Item) : List Nat :=
  toDelete.map (fun i => i.id.getD 0)

/-- The database after `DELETE .. WHERE id IN (..) AND order_no = ..`. -/
def applyDelete (ids : List Nat) (key : String) (db : Db) : Db :=
  { db with rows := db.rows.filter (fun r => !delMatch ids key r) }

/-- The rows the verification SELECT returns. -/
def foundRows (ids : List Nat) (key : String) (db : Db) : List Row :=
  db.rows.filter (delMatch ids key)

def deletePhase (orderExists : Bool) (key : String) (toDelete : List Item)
    (db : Db) : Except Err (Db × List Stmt) :=
  if toDelete.isEmpty then .ok (db, [])
  else if orderExists then
    if (foundRows (deleteIds toDelete) key db).length =
        (deleteIds toDelete).length then
      .ok (applyDelete (deleteIds toDelete) key db,
        [.verifyDeleteIds (deleteIds toDelete) key,
         .deleteByIds (deleteIds toDelete) key])
    else
      .error (.cannotDelete
        ((deleteIds toDelete).filter
          (fun i =>
            !((foundRows (deleteIds toDelete) key db).map (·.id)).contains
              i)) key)
  else
    .ok (applyDelete (deleteIds toDelete) key db,
      [.deleteByIds (deleteIds toDelete) key])

/-- The row predicate of `WHERE id = .. AND order_no = ..`. -/
def updMatch (id : Nat) (key : String) (r : Row) : Bool :=
  decide (r.id = id) && decide (r.order_no = key)

/-- The allow-list filtering applied to one update item. -/
def filteredOf (i : Item) : List (String × Value) :=
  i.fields.filter (fun kv => allowedFields.contains kv.1)

/-- The per-item verification SELECT (`SELECT order_no FROM orders WHERE
id = ..`): existence check and cross-order guard, skipped when the
order did not exist. -/
def checkItem (orderExists : Bool) (key : String) (id : Nat) (db : Db) :
    Except Err (List Stmt) :=
  if orderExists then
    match db.rows.find? (fun r => decide (r.id = id)) with
    | none => .error (.itemNotFound id)
    | some r0 =>
      if r0.order_no = key then .ok [.checkItemOrder id]
      else .error (.crossOrder id r0.order_no key)
  else .ok []

/-- The database after one targeted UPDATE. -/
def applyUpdate (id : Nat) (key : String) (kvs : List (String × Value))
    (db : Db) : Db :=
  { db with rows := db.rows.map (fun r =>
      if updMatch id key r then applyFields r kvs else r) }

/-- One iteration of the update loop (lines 1380-1432): existence and
ownership check (only when the order exists), allow-list filtering with
skip-on-empty, then the targeted UPDATE with a zero-rows check. -/
def updateOne (orderExists : Bool) (key : String) (i : Item) (db : Db) :
    Except Err (Db × List Stmt) :=
  match checkItem orderExists key (i.id.getD 0) db with
  | .error e => .error e
  | .ok tr =>
    if (filteredOf i).isEmpty then .ok (db, tr)
    else if db.rows.countP (updMatch (i.id.getD 0) key) = 0 then
      .error (.noRecordForUpdate (i.id.getD 0) key)
    else
      .ok (applyUpdate (i.id.getD 0) key (filteredOf i) db,
        tr ++ [.updateById (i.id.getD 0) (filteredOf i) key])

/-- The update loop over `itemsToUpdate` in list order. -/
def updatePhase (orderExists : Bool) (key : String) :
    List Item → Db → Except Err (Db × List Stmt)
  | [], db => .ok (db, [])
  | i :: rest, db =>
    match updateOne orderExists key i db with
    | .error e => .error e
    | .ok (db1, tr1) =>
      match updatePhase orderExists key rest db1 with
      | .error e => .error e
      | .ok (db2, tr2) => .ok (db2, tr1 ++ tr2)

/-- The full row built for one insertion (lines 1444-1480): identity and
common fields from `commonOrderDetails`, per-row business fields from
the item with `|| 0` / `|| ''` / `|| null` defaults. -/
def buildInsertRow (key : String) (c : Common) (i : Item) (newId : Nat) :
    Row :=
  { id := newId
    order_no := key
    voucher_type := c.voucher_type
    order_date := c.order_date
    customer_code := c.customer_code
    customer_name := c.customer_name
    executive := c.executive
    role := c.role
    status := c.status
    item_code := i.orDefault "item_code" (.str "")
    item_name := i.orDefault "item_name" (.str "")
    hsn := i.orDefault "hsn" (.str "")
    gst := i.orDefault "gst" (.num 0)
    sgst := i.orDefault "sgst" (.num 0)
    cgst := i.orDefault "cgst" (.num 0)
    igst := i.orDefault "igst" (.num 0)
    delivery_date := i.orDefault "delivery_date" .null
    delivery_mode := i.orDefault "delivery_mode" (.str "")
    transporter_name := i.orDefault "transporter_name" (.str "")
    quantity := i.orDefault "quantity" (.num 0)
    uom := i.orDefault "uom" (.str "")
    rate := i.orDefault "rate" (.num 0)
    amount := i.orDefault "amount" (.num 0)
    net_rate := i.orDefault "net_rate" (.num 0)
    gross_amount := i.orDefault "gross_amount" (.num 0)
    disc_percentage := i.orDefault "disc_percentage" (.num 0)
    disc_amount := i.orDefault "disc_amount" (.num 0)
    spl_disc_percentage := i.orDefault "spl_disc_percentage" (.num 0)
    spl_disc_amount := i.orDefault "spl_disc_amount" (.num 0)
    total_quantity := c.total_quantity
    total_amount := c.total_amount
    total_amount_without_tax := c.total_amount_without_tax
    total_sgst_amount := c.total_sgst_amount
    total_cgst_amount := c.total_cgst_amount
    total_igst_amount := c.total_igst_amount
    remarks := c.remarks }

/-- The insertion loop (lines 1436-1501) in list order; the identity
column supplies `RETURNING id`.  No step of it can fail. -/
def insertPhase (key : String) (c : Common) :
    List Item → Db → Db × List Stmt
  | [], db => (db, [])
  | i :: rest, db =>
    ((insertPhase key c rest
        ⟨db.rows ++ [buildInsertRow key c i db.nextId], db.nextId + 1⟩).1,
      .insertNewRow (buildInsertRow key c i db.nextId) ::
        (insertPhase key c rest
          ⟨db.rows ++ [buildInsertRow key c i db.nextId],
            db.nextId + 1⟩).2)

/-- Header propagation (lines 1503-1544): when the order pre-existed or
something was inserted, one UPDATE writes the common fields to every row
of the order. -/
def propagatePhase (cond : Bool) (key : String) (c : Common) (db : Db) :
    Db × List Stmt :=
  if cond then
    ({ db with rows := db.rows.map (fun r =>
        if r.order_no = key then setCommon c r else r) },
      [.propagateCommon c key])
  else (db, [])

/-- `SELECT * FROM orders WHERE order_no = :1 ORDER BY id`. -/
def selectOrder (key : String) (db : Db) : List Row :=
  sortByKey Row.id (db.rows.filter (fun r => decide (r.order_no = key)))

/-- `SELECT COUNT(*) .. WHERE order_no = ..` compared with 0. -/
def orderExistsB (db : Db) (key : String) : Bool :=
  db.rows.any (fun r => decide (r.order_no = key))

/-- The whole handler.  `today` stands for the current date string used
in `defaultOrderDetails`.  An error leaves the returned database at the
pre-call state, mirroring the catch-with-rollback block at lines
1575-1590; the trace lists the statements of a successful run. -/
def reconcile (today : Value) (db : Db) (order_no : String)
    (body : List Item) : RunResult :=
  if jsTrim order_no = "" then ⟨db, [], .error .orderNoRequired⟩
  else
    let allItems := sortItems body
    if allItems.isEmpty then ⟨db, [], .error .noData⟩
    else
      let toInsert := allItems.filter insPred
      let toUpdate := allItems.filter updPred
      let toDelete := allItems.filter delPred
      let orderExists := orderExistsB db order_no
      if !orderExists && toInsert.isEmpty then
        ⟨db, [], .error (.orderMissing order_no)⟩
      else
        let common := computeCommon today allItems
        match deletePhase orderExists order_no toDelete db with
        | .error e => ⟨db, [], .error e⟩
        | .ok (db1, tr1) =>
          match updatePhase orderExists order_no toUpdate db1 with
          | .error e => ⟨db, [], .error e⟩
          | .ok (db2, tr2) =>
            let p3 := insertPhase order_no common toInsert db2
            let p4 :=
              propagatePhase (orderExists || !toInsert.isEmpty)
                order_no common p3.1
            ⟨p4.1,
              .countByOrder order_no :: tr1 ++ tr2 ++ p3.2 ++ p4.2 ++
                [.selectByOrder order_no],
              .ok ⟨⟨toInsert.length, toUpdate.length, toDelete.length⟩,
                selectOrder order_no p4.1⟩⟩

end TestHandler

namespace OracleService

/-! Embedding of `executeTransaction` (src/unnamed/part_000, lines
35-57): execute the operations in order on one connection, commit on
success, roll back on the first failure. -/

/-- The statement loop: thread the database through the operations until
one fails. -/
def runOps : List (Db → Except Err Db) → Db → Except Err Db
  | [], db => .ok db
  | op :: rest, db =>
    match op db with
    | .error e => .error e
    | .ok db1 => runOps rest db1

/-- `executeTransaction`: on success the loop's final state is
committed; on an error the rollback restores the initial state and the
error is rethrown. -/
def executeTransaction (ops : List (Db → Except Err Db)) (db : Db) :
    Db × Except Err Db :=
  match runOps ops db with
  | .ok db1 => (db1, .ok db1)
  | .error e => (db, .error e)

end OracleService

namespace RoutesHandler

/-! Embedding of `router.put('/orders-by-number/:order_no')`
(src/routes/orders.js lines 225-384).  `tod` stands for the helper
`toOracleDate` (src/utils/helpers.js, not part of the sources), applied
to a possibly absent field value; `todayD` stands for `new Date()`. -/

/-- The update allow-list of orders.js (lines 255-285): the same 29
names as the test.js list, in a different order. -/
def allowedFieldsR : List String :=
  ["status", "disc_percentage", "disc_amount", "spl_disc_percentage",
   "spl_disc_amount", "net_rate", "gross_amount", "quantity", "gst",
   "sgst", "cgst", "igst", "hsn", "rate", "amount", "uom", "item_code",
   "item_name", "delivery_date", "delivery_mode", "transporter_name",
   "total_quantity", "total_amount", "total_amount_without_tax",
   "total_sgst_amount", "total_cgst_amount", "total_igst_amount",
   "remarks", "order_date"]

/-- The `DELETE FROM orders WHERE id IN (..) AND order_no = ..`
operation (lines 245-252). -/
def deleteOp (ids : List Nat) (key : String) : Db → Except Err Db :=
  fun db =>
    .ok { db with rows :=
      db.rows.filter (fun r => !TestHandler.delMatch ids key r) }

/-- One `UPDATE .. SET .. WHERE id = .. AND order_no = ..` operation
(lines 287-311); `order_date` and `delivery_date` values pass through
`toOracleDate` first.  `rowsAffected` is not inspected. -/
def updateOp (tod : Option Value → Value) (id : Nat) (key : String)
    (filtered : List (String × Value)) : Db → Except Err Db :=
  let vals := filtered.map (fun kv =>
    if kv.1 = "order_date" ∨ kv.1 = "delivery_date"
    then (kv.1, tod (some kv.2)) else kv)
  fun db =>
    .ok { db with rows := db.rows.map (fun r =>
      if TestHandler.updMatch id key r then applyFields r vals else r) }

/-- The full row of one `INSERT` (lines 314-351): all values come from
the submitted item with defaults; there is no common-field sourcing. -/
def buildInsertRowR (tod : Option Value → Value) (todayD : Value)
    (key : String) (i : Item) (newId : Nat) : Row :=
  { id := newId
    order_no := key
    voucher_type := i.orDefault "voucher_type"
      (.str "Distributor Order-Web Based")
    order_date :=
      let v := tod (i.getField "order_date")
      if v.truthy then v else todayD
    customer_code := i.orDefault "customer_code" (.str "")
    customer_name := i.orDefault "customer_name" (.str "")
    executive := i.orDefault "executive" (.str "")
    role := i.orDefault "role" (.str "distributor")
    status := i.orDefault "status" (.str "pending")
    item_code := i.orDefault "item_code" (.str "")
    item_name := i.orDefault "item_name" (.str "")
    hsn := i.orDefault "hsn" (.str "")
    gst := i.orDefault "gst" (.num 0)
    sgst := i.orDefault "sgst" (.num 0)
    cgst := i.orDefault "cgst" (.num 0)
    igst := i.orDefault "igst" (.num 0)
    delivery_date := tod (i.getField "delivery_date")
    delivery_mode := i.orDefault "delivery_mode" (.str "")
    transporter_name := i.orDefault "transporter_name" (.str "")
    quantity := i.orDefault "quantity" (.num 0)
    uom := i.orDefault "uom" (.str "")
    rate := i.orDefault "rate" (.num 0)
    amount := i.orDefault "amount" (.num 0)
    net_rate := i.orDefault "net_rate" (.num 0)
    gross_amount := i.orDefault "gross_amount" (.num 0)
    disc_percentage := i.orDefault "disc_percentage" (.num 0)
    disc_amount := i.orDefault "disc_amount" (.num 0)
    spl_disc_percentage := i.orDefault "spl_disc_percentage" (.num 0)
    spl_disc_amount := i.orDefault "spl_disc_amount" (.num 0)
    total_quantity := i.orDefault "total_quantity" (.num 0)
    total_amount := i.orDefault "total_amount" (.num 0)
    total_amount_without_tax :=
      i.orDefault "total_amount_without_tax" (.num 0)
    total_sgst_amount := i.orDefault "total_sgst_amount" (.num 0)
    total_cgst_amount := i.orDefault "total_cgst_amount" (.num 0)
    total_igst_amount := i.orDefault "total_igst_amount" (.num 0)
    remarks := i.orDefault "remarks" (.str "") }

/-- One `INSERT INTO orders .. VALUES ..` operation (lines 353-361);
the identity column assigns the id. -/
def insertOp (tod : Option Value → Value) (todayD : Value) (key : String)
    (i : Item) : Db → Except Err Db :=
  fun db =>
    .ok { rows := db.rows ++ [buildInsertRowR tod todayD key i db.nextId],
          nextId := db.nextId + 1 }

/-- The per-update operation list: allow-list filtering with
skip-on-empty (line 293 `continue`). -/
def updateOps (tod : Option Value → Value) (key : String)
    (toUpdate : List Item) : List (Db → Except Err Db) :=
  (toUpdate.filter (fun i =>
      !(i.fields.filter (fun kv => allowedFieldsR.contains kv.1)).isEmpty)
    ).map (fun i =>
      updateOp tod (i.id.getD 0) key
        (i.fields.filter (fun kv => allowedFieldsR.contains kv.1)))

/-- The whole handler: build the operations array, run it through
`executeTransaction`, then read the order back sorted by id. -/
def reconcile (tod : Option Value → Value) (todayD : Value) (db : Db)
    (order_no : String) (body : List Item) : Db × Except Err Outcome :=
  if jsTrim order_no = "" then (db, .error .orderNoRequired)
  else
    let allItems := TestHandler.sortItems body
    if allItems.isEmpty then (db, .error .noData)
    else
      let toInsert := allItems.filter TestHandler.insPred
      let toUpdate := allItems.filter TestHandler.updPred
      let toDelete := allItems.filter TestHandler.delPred
      let delOps : List (Db → Except Err Db) :=
        if toDelete.isEmpty then []
        else [deleteOp (toDelete.map (fun i => i.id.getD 0)) order_no]
      let ops := delOps ++ updateOps tod order_no toUpdate ++
        toInsert.map (insertOp tod todayD order_no)
      match OracleService.executeTransaction ops db with
      | (_, .error e) => (db, .error e)
      | (db1, .ok _) =>
        (db1, .ok ⟨⟨toInsert.length, toUpdate.length, toDelete.length⟩,
          TestHandler.selectOrder order_no db1⟩)

end RoutesHandler

namespace TestHandler

/-- The insert partition as a function of the request body. -/
def toInsertOf (body : List Item) : List Item :=
  (sortItems body).filter insPred

/-- The update partition as a function of the request body. -/
def toUpdateOf (body : List Item) : List Item :=
  (sortItems body).filter updPred

/-- The delete partition as a function of the request body. -/
def toDeleteOf (body : List Item) : List Item :=
  (sortItems body).filter delPred

/-- An item carrying the deletion flag but no (truthy) id. -/
def ghost (i : Item) : Bool := i.deleted && !i.hasId

end TestHandler

/-- The ids of the UPDATE statements of a trace, in issue order. -/
def updateIdsOf (tr : List Stmt) : List Nat :=
  tr.filterMap fun s =>
    match s with
    | .updateById id _ _ => some id
    | _ => none

/-- The per-id verification lookups: the delete-ownership SELECT and the
update-item existence SELECT. -/
def isVerifyStmt : Stmt → Bool
  | .verifyDeleteIds _ _ => true
  | .checkItemOrder _ => true
  | _ => false

/-! Concrete fixtures used by witnesses and counterexamples. -/

/-- A fixed current-date string. -/
def today0 : Value := .str "2026-02-03"

/-- A fully populated row of order `key` with id `id`. -/
def mkRow (id : Nat) (key : String) : Row :=
  { id := id, order_no := key
    voucher_type := .str "Sales Order", order_date := .str "2026-01-01"
    customer_code := .str "C1", customer_name := .str "Acme"
    executive := .str "", role := .str "distributor"
    status := .str "pending", item_code := .str "I1"
    item_name := .str "Bolt", hsn := .str "", gst := .num 18
    sgst := .num 9, cgst := .num 9, igst := .num 0
    delivery_date := .null, delivery_mode := .str ""
    transporter_name := .str "", quantity := .num 5, uom := .str "pcs"
    rate := .num 10, amount := .num 50, net_rate := .num 10
    gross_amount := .num 50, disc_percentage := .num 0
    disc_amount := .num 0, spl_disc_percentage := .num 0
    spl_disc_amount := .num 0, total_quantity := .num 5
    total_amount := .num 59, total_amount_without_tax := .num 50
    total_sgst_amount := .num 4, total_cgst_amount := .num 4
    total_igst_amount := .num 0, remarks := .str "" }

/-- The submitted item that re-states a persisted row exactly: the same
id, no deletion flag, and every business field with its stored value. -/
def itemOfRow (r : Row) : Item :=
  ⟨some r.id, false,
   [("voucher_type", r.voucher_type), ("order_date", r.order_date),
    ("customer_code", r.customer_code), ("customer_name", r.customer_name),
    ("executive", r.executive), ("role", r.role), ("status", r.status),
    ("item_code", r.item_code), ("item_name", r.item_name),
    ("hsn", r.hsn), ("gst", r.gst), ("sgst", r.sgst), ("cgst", r.cgst),
    ("igst", r.igst), ("delivery_date", r.delivery_date),
    ("delivery_mode", r.delivery_mode),
    ("transporter_name", r.transporter_name), ("quantity", r.quantity),
    ("uom", r.uom), ("rate", r.rate), ("amount", r.amount),
    ("net_rate", r.net_rate), ("gross_amount", r.gross_amount),
    ("disc_percentage", r.disc_percentage),
    ("disc_amount", r.disc_amount),
    ("spl_disc_percentage", r.spl_disc_percentage),
    ("spl_disc_amount", r.spl_disc_amount),
    ("total_quantity", r.total_quantity),
    ("total_amount", r.total_amount),
    ("total_amount_without_tax", r.total_amount_without_tax),
    ("total_sgst_amount", r.total_sgst_amount),
    ("total_cgst_amount", r.total_cgst_amount),
    ("total_igst_amount", r.total_igst_amount),
    ("remarks", r.remarks)]⟩

/-- A one-row database: order `"A"` with row id 1. -/
def dbA : Db := ⟨[mkRow 1 "A"], 2⟩

/-- A two-row database: order `"A"` with rows 1 and 2. -/
def dbA2 : Db := ⟨[mkRow 1 "A", mkRow 2 "A"], 3⟩

/-- The empty database. -/
def emptyDb : Db := ⟨[], 1⟩

/-- A plain insert item (no id, no deletion flag). -/
def insItem : Item := ⟨none, false, [("item_name", .str "New"), ("quantity", .num 2)]⟩

/-- An update of row 1 setting `quantity` to 9. -/
def updItem1 : Item := ⟨some 1, false, [("quantity", .num 9)]⟩

/-- An update of row 2 setting `quantity` to 7. -/
def updItem2 : Item := ⟨some 2, false, [("quantity", .num 7)]⟩

namespace TestHandler

/-- Every error path of the handler answers with the pre-call database:
the catch block rolls the transaction back. -/
theorem rollback_of_error (today : Value) (db : Db) (key : String)
    (body : List Item) :
    ∀ e, (reconcile today db key body).result = .error e →
      (reconcile today db key body).db = db := by
  intro e
  simp only [reconcile]
  repeat' split
  all_goals intro h
  all_goals first
    | rfl
    | simp at h

end TestHandler

namespace OracleService

/-- `executeTransaction` answers with the initial database whenever the
operation loop fails: the rollback undoes every executed statement. -/
theorem executeTransaction_rollback (ops : List (Db → Except Err Db))
    (db : Db) :
    ∀ e, (executeTransaction ops db).2 = .error e →
      (executeTransaction ops db).1 = db := by
  intro e
  unfold executeTransaction
  split
  · intro h; simp at h
  · intro _; rfl

end OracleService

/-- C1: if any fatal error occurs during the reconcile sequence, the
entire transaction is rolled back — the storage state after the failed
call equals the state before it — and the single error is propagated to
the caller.  Stated for the test.js handler (whose catch block rolls
back and answers the one error) and for the generic operation loop of
`executeTransaction` used by the orders.js handler. -/
theorem c1_rollback_atomicity :
    (∀ today db key body e,
      (TestHandler.reconcile today db key body).result = .error e →
        (TestHandler.reconcile today db key body).db = db) ∧
    (∀ ops db e,
      (OracleService.executeTransaction ops db).2 = .error e →
        (OracleService.executeTransaction ops db).1 = db) :=
  ⟨fun today db key body e h =>
      TestHandler.rollback_of_error today db key body e h,
    fun ops db e h =>
      OracleService.executeTransaction_rollback ops db e h⟩

/-- Witness for C1: a concrete failing call (an update batch for a
nonexistent order) leaves the database untouched. -/
theorem c1_rollback_atomicity_witness :
    (TestHandler.reconcile today0 emptyDb "B" [updItem1]).result =
        .error (.orderMissing "B") ∧
      (TestHandler.reconcile today0 emptyDb "B" [updItem1]).db = emptyDb :=
  ⟨by decide,
    c1_rollback_atomicity.1 today0 emptyDb "B" [updItem1]
      (.orderMissing "B") (by decide)⟩

/-- C6 counterexample: order `"A"` exists in `dbA`, yet the reconcile
call with an empty items list is rejected with the "No data provided"
error — the claim says an empty list is accepted when the order already
exists. -/
theorem c6_counterexample :
    TestHandler.orderExistsB dbA "A" = true ∧
      (TestHandler.reconcile today0 dbA "A" []).result = .error .noData :=
  ⟨by decide, by decide⟩

/-- C6 (amended): both handlers reject an empty items list
unconditionally, before any storage access — whether or not the order
exists.  (The separate "order missing and nothing to insert" check only
concerns non-empty bodies.) -/
theorem c6_empty_rejected_unconditionally (today : Value) (db : Db)
    (key : String) (h : ¬ jsTrim key = "") :
    TestHandler.reconcile today db key [] = ⟨db, [], .error .noData⟩ ∧
      ∀ tod todayD,
        RoutesHandler.reconcile tod todayD db key [] =
          (db, .error .noData) := by
  constructor
  · unfold TestHandler.reconcile
    rw [if_neg h]
    rfl
  · intro tod todayD
    unfold RoutesHandler.reconcile
    rw [if_neg h]
    rfl

/-- Witness for C6's amended statement at a populated database. -/
theorem c6_empty_rejected_witness :
    ¬ jsTrim "A" = "" ∧
      TestHandler.reconcile today0 dbA "A" [] = ⟨dbA, [], .error .noData⟩ :=
  ⟨by decide,
    (c6_empty_rejected_unconditionally today0 dbA "A" (by decide)).1⟩

/-- An update item whose id 1 belongs to order `"A"`, carrying only a
field outside the update allow-list. -/
def crossItem : Item := ⟨some 1, false, [("customer_name", .str "X")]⟩

/-- A deletion request for id 1. -/
def delItem1 : Item := ⟨some 1, true, []⟩

/-- C3 counterexample: id 1 belongs to order `"A"`, yet reconciling
order `"B"` with an update item for id 1 (and one insert) succeeds —
the per-id ownership check runs only when the requested order exists, so
the call does not fail as the claim demands (the row itself stays
untouched). -/
theorem c3_counterexample :
    (mkRow 1 "A").order_no = "A" ∧ "A" ≠ "B" ∧
      TestHandler.orderExistsB dbA "B" = false ∧
      (TestHandler.reconcile today0 dbA "B" [insItem, crossItem]).result.isOk
        = true ∧
      (TestHandler.reconcile today0 dbA "B" [insItem, crossItem]).db.rows.filter
        (fun r => decide (r.id = 1)) = [mkRow 1 "A"] :=
  ⟨rfl, by decide, by decide, by decide, by decide⟩

/-- C4 counterexample: a delete set naming id 1 — which belongs to order
`"A"`, not to the requested (nonexistent) order `"B"` — is not verified
at all, causes no failure, and the call succeeds with the foreign row
intact: the verification lookup is skipped whenever the order does not
exist. -/
theorem c4_counterexample :
    (TestHandler.reconcile today0 dbA "B" [insItem, delItem1]).result.isOk
        = true ∧
      ((TestHandler.reconcile today0 dbA "B" [insItem, delItem1]).trace.all
        (fun s => !isVerifyStmt s)) = true ∧
      mkRow 1 "A" ∈ (TestHandler.reconcile today0 dbA "B"
        [insItem, delItem1]).db.rows :=
  ⟨by decide, by decide, by decide⟩

/-- C5 counterexample: reconciling order `"A"` with exactly its one
persisted row reports `updated = 1`, not the `updated = 0` the claim
demands (the row set itself is returned unchanged). -/
theorem c5_counterexample :
    (TestHandler.reconcile today0 dbA "A" [itemOfRow (mkRow 1 "A")]).result
        = .ok ⟨⟨0, 1, 0⟩, [mkRow 1 "A"]⟩ ∧
      (1 : Nat) ≠ 0 :=
  ⟨by decide, by decide⟩

/-- C7 counterexample: submitting the update for id 2 before the update
for id 1 still issues the UPDATE statements in ascending id order
`[1, 2]` — the handler sorts the body by id before processing, so the
k-th statement does not correspond to the k-th submitted update item. -/
theorem c7_counterexample :
    updateIdsOf (TestHandler.reconcile today0 dbA2 "A"
        [updItem2, updItem1]).trace = [1, 2] ∧
      ([updItem2, updItem1].filter TestHandler.updPred).map
        (fun i => i.id.getD 0) = [2, 1] ∧
      ([1, 2] : List Nat) ≠ [2, 1] :=
  ⟨by decide, by decide, by decide⟩

/-- C9 counterexample: on the same input — a nonexistent order with a
single id-bearing item and no inserts — the test.js handler fails with
the "order does not exist" error while the orders.js handler succeeds
(reporting `updated = 1`): the two handlers are not equivalent. -/
theorem c9_counterexample :
    (TestHandler.reconcile today0 emptyDb "B" [⟨some 1, false, []⟩]).result
        = .error (.orderMissing "B") ∧
      (RoutesHandler.reconcile (fun _ => .null) .null emptyDb "B"
        [⟨some 1, false, []⟩]).2 = .ok ⟨⟨0, 1, 0⟩, []⟩ :=
  ⟨by decide, by decide⟩

/-- Filtering by `q` after filtering by a weaker predicate `p` is just
filtering by `q`. -/
theorem filter_filter_of_imp {α : Type} {p q : α → Bool} (l : List α)
    (h : ∀ a, q a = true → p a = true) :
    (l.filter p).filter q = l.filter q := by
  induction l with
  | nil => rfl
  | cons a l ih =>
    cases hq : q a
    · cases hp : p a <;> simp [List.filter_cons, hp, hq, ih]
    · have hp : p a = true := h a hq
      simp [List.filter_cons, hp, hq, ih]

namespace TestHandler

/-- `computeCommon` reads the item list only through its non-deleted
part. -/
theorem computeCommon_congr (today : Value) {l1 l2 : List Item}
    (h : l1.filter validPred = l2.filter validPred) :
    computeCommon today l1 = computeCommon today l2 := by
  unfold computeCommon
  rw [h]

/-- The handler reads the sorted body only through its emptiness, the
three partitions and the non-deleted sublist. -/
theorem reconcile_congr (today : Value) (db : Db) (key : String)
    {b1 b2 : List Item}
    (hne : (sortItems b1).isEmpty = (sortItems b2).isEmpty)
    (hins : (sortItems b1).filter insPred = (sortItems b2).filter insPred)
    (hupd : (sortItems b1).filter updPred = (sortItems b2).filter updPred)
    (hdel : (sortItems b1).filter delPred = (sortItems b2).filter delPred)
    (hval : (sortItems b1).filter validPred =
      (sortItems b2).filter validPred) :
    reconcile today db key b1 = reconcile today db key b2 := by
  simp only [reconcile]
  rw [hne, hins, hupd, hdel, computeCommon_congr today hval]

end TestHandler

/-- C8: an item with the deletion flag but no id lands in none of the
three partitions, and dropping all such items from the body (as long as
something else remains) leaves the whole call — statements, storage
effect, counts and response — unchanged: it produces no delete
operation, no contribution to the deleted count, and no error. -/
theorem c8_flagged_without_id_noop (today : Value) (db : Db) (key : String)
    (body : List Item) :
    (∀ g ∈ body, TestHandler.ghost g = true →
      g ∉ TestHandler.toInsertOf body ∧ g ∉ TestHandler.toUpdateOf body ∧
        g ∉ TestHandler.toDeleteOf body) ∧
    (body.filter (fun i => !TestHandler.ghost i) ≠ [] →
      TestHandler.reconcile today db key body =
        TestHandler.reconcile today db key
          (body.filter (fun i => !TestHandler.ghost i))) := by
  constructor
  · intro g _ hg
    have hdel : g.deleted = true := by
      revert hg; unfold TestHandler.ghost; cases g.deleted <;> simp
    have hid : g.hasId = false := by
      revert hg; unfold TestHandler.ghost
      cases g.hasId <;> cases g.deleted <;> simp
    refine ⟨?_, ?_, ?_⟩ <;> intro hmem
    · have := (List.mem_filter.mp hmem).2
      simp [TestHandler.insPred, hdel] at this
    · have := (List.mem_filter.mp hmem).2
      simp [TestHandler.updPred, hdel, hid] at this
    · have := (List.mem_filter.mp hmem).2
      simp [TestHandler.delPred, hdel, hid] at this
  · intro hne
    have hsort : TestHandler.sortItems
        (body.filter (fun i => !TestHandler.ghost i)) =
        (TestHandler.sortItems body).filter (fun i => !TestHandler.ghost i) :=
      (filter_sortByKey Item.idKey _ body).symm
    have himp1 : ∀ i, TestHandler.insPred i = true →
        (!TestHandler.ghost i) = true := by
      intro i h
      unfold TestHandler.insPred at h
      unfold TestHandler.ghost
      cases hd : i.deleted <;> simp_all
    have himp2 : ∀ i, TestHandler.updPred i = true →
        (!TestHandler.ghost i) = true := by
      intro i h
      unfold TestHandler.updPred at h
      unfold TestHandler.ghost
      cases hd : i.deleted <;> simp_all
    have himp3 : ∀ i, TestHandler.delPred i = true →
        (!TestHandler.ghost i) = true := by
      intro i h
      unfold TestHandler.delPred at h
      unfold TestHandler.ghost
      cases hd : i.deleted <;> cases hi : i.hasId <;> simp_all
    have himp4 : ∀ i, TestHandler.validPred i = true →
        (!TestHandler.ghost i) = true := by
      intro i h
      unfold TestHandler.validPred at h
      unfold TestHandler.ghost
      cases hd : i.deleted <;> simp_all
    have hne2 : (TestHandler.sortItems body).filter
        (fun i => !TestHandler.ghost i) ≠ [] := by
      rw [← hsort]
      intro hcon
      apply hne
      have hlen : (TestHandler.sortItems
          (body.filter (fun i => !TestHandler.ghost i))).length = 0 := by
        rw [hcon]; rfl
      unfold TestHandler.sortItems at hlen
      rw [length_sortByKey Item.idKey] at hlen
      exact List.length_eq_zero.mp hlen
    have hnebody : TestHandler.sortItems body ≠ [] := by
      intro hcon
      exact hne2 (by rw [hcon]; rfl)
    refine (TestHandler.reconcile_congr today db key ?_ ?_ ?_ ?_ ?_).symm
    · rw [hsort]
      cases h1 : TestHandler.sortItems body with
      | nil => exact absurd h1 hnebody
      | cons a l =>
        have : (a :: l).filter (fun i => !TestHandler.ghost i) ≠ [] := by
          rw [← h1]; exact hne2
        rcases hx : (a :: l).filter (fun i => !TestHandler.ghost i) with
          _ | ⟨b, m⟩
        · exact absurd hx this
        · rfl
    · rw [hsort, filter_filter_of_imp _ himp1]
    · rw [hsort, filter_filter_of_imp _ himp2]
    · rw [hsort, filter_filter_of_imp _ himp3]
    · rw [hsort, filter_filter_of_imp _ himp4]

/-- Witness for C8: a concrete flagged-id-less item is excluded from the
delete partition and its removal from the body leaves the call's result
unchanged. -/
theorem c8_flagged_without_id_noop_witness :
    ((⟨none, true, []⟩ : Item) ∉
        TestHandler.toDeleteOf [insItem, ⟨none, true, []⟩]) ∧
      TestHandler.reconcile today0 dbA "A" [insItem, ⟨none, true, []⟩] =
        TestHandler.reconcile today0 dbA "A"
          ([insItem, ⟨none, true, []⟩].filter
            (fun i => !TestHandler.ghost i)) :=
  ⟨((c8_flagged_without_id_noop today0 dbA "A"
      [insItem, ⟨none, true, []⟩]).1 _ (by decide) (by decide)).2.2,
    (c8_flagged_without_id_noop today0 dbA "A"
      [insItem, ⟨none, true, []⟩]).2 (by decide)⟩

/-- Propagation writes exactly the common fields. -/
theorem commonsOf_setCommon (c : Common) (r : Row) :
    commonsOf (setCommon c r) = c := rfl

/-- The guard of the handler: surviving the "order missing and nothing
to insert" check makes the propagation condition true. -/
theorem guard_to_propagate (a b : Bool) (h : ¬ (!a && b) = true) :
    (a || !b) = true := by
  cases a <;> cases b <;> simp_all

namespace TestHandler

/-- After the header-propagation statement, every row of the order
carries exactly the computed common fields. -/
theorem propagate_commons {cond : Bool} (hc : cond = true) (key : String)
    (c : Common) (db : Db) :
    ∀ r ∈ (propagatePhase cond key c db).1.rows, r.order_no = key →
      commonsOf r = c := by
  subst hc
  intro r hr hkey
  simp only [propagatePhase, if_pos rfl] at hr
  rcases List.mem_map.mp hr with ⟨r0, _, rfl⟩
  by_cases h0 : r0.order_no = key
  · rw [if_pos h0]
    exact commonsOf_setCommon c r0
  · rw [if_neg h0] at hkey ⊢
    exact absurd hkey h0

end TestHandler

/-- C2: after every successful reconcile call, every persisted row of
the requested order carries the common order-level fields computed from
the priority item (the handler writes them to every matching row as the
final mutation before commit, and that propagation runs on every
successful call). -/
theorem c2_header_consistency (today : Value) (db : Db) (key : String)
    (body : List Item) (o : Outcome)
    (hok : (TestHandler.reconcile today db key body).result = .ok o) :
    ∀ r ∈ (TestHandler.reconcile today db key body).db.rows,
      r.order_no = key →
        commonsOf r =
          TestHandler.computeCommon today (TestHandler.sortItems body) := by
  revert hok
  simp only [TestHandler.reconcile]
  repeat' split
  all_goals intro hok
  all_goals try simp at hok
  intro r hr hkey
  refine TestHandler.propagate_commons (guard_to_propagate _ _ ?_) key _ _
    r hr hkey
  assumption

/-- Witness for C2 at a concrete successful call. -/
theorem c2_header_consistency_witness :
    commonsOf (mkRow 1 "A") =
      TestHandler.computeCommon today0
        (TestHandler.sortItems [itemOfRow (mkRow 1 "A")]) :=
  c2_header_consistency today0 dbA "A" [itemOfRow (mkRow 1 "A")]
    ⟨⟨0, 1, 0⟩, [mkRow 1 "A"]⟩ (by decide) (mkRow 1 "A") (by decide)
    (by decide)

/-- An UPDATE assignment never changes the id column. -/
theorem applyField_id (r : Row) (k : String) (v : Value) :
    (applyField r k v).id = r.id := by
  unfold applyField; split <;> rfl

/-- An UPDATE assignment never changes the order key column. -/
theorem applyField_order (r : Row) (k : String) (v : Value) :
    (applyField r k v).order_no = r.order_no := by
  unfold applyField; split <;> rfl

/-- A whole SET clause never changes the id column. -/
theorem applyFields_id (kvs : List (String × Value)) (r : Row) :
    (applyFields r kvs).id = r.id := by
  induction kvs generalizing r with
  | nil => rfl
  | cons kv rest ih =>
    simp only [applyFields, List.foldl_cons] at *
    rw [ih, applyField_id]

/-- A whole SET clause never changes the order key column. -/
theorem applyFields_order (kvs : List (String × Value)) (r : Row) :
    (applyFields r kvs).order_no = r.order_no := by
  induction kvs generalizing r with
  | nil => rfl
  | cons kv rest ih =>
    simp only [applyFields, List.foldl_cons] at *
    rw [ih, applyField_order]

namespace TestHandler

/-- Rows of other orders survive the delete statement untouched. -/
theorem deletePhase_preserves {oe : Bool} {key : String} {td : List Item}
    {db db1 : Db} {tr : List Stmt}
    (h : deletePhase oe key td db = .ok (db1, tr)) :
    ∀ r ∈ db.rows, ¬ r.order_no = key → r ∈ db1.rows := by
  unfold deletePhase at h
  split at h
  · cases h
    intro r hr _
    exact hr
  · split at h
    · split at h
      · cases h
        intro r hr hno
        exact List.mem_filter.mpr ⟨hr, by simp [delMatch, hno]⟩
      · cases h
    · cases h
      intro r hr hno
      exact List.mem_filter.mpr ⟨hr, by simp [delMatch, hno]⟩

/-- Rows of other orders survive one update iteration untouched. -/
theorem updateOne_preserves {oe : Bool} {key : String} {i : Item}
    {db db1 : Db} {tr : List Stmt}
    (h : updateOne oe key i db = .ok (db1, tr)) :
    ∀ r ∈ db.rows, ¬ r.order_no = key → r ∈ db1.rows := by
  unfold updateOne at h
  split at h
  · cases h
  · split at h
    · cases h
      intro r hr _
      exact hr
    · split at h
      · cases h
      · cases h
        intro r hr hno
        have hm : updMatch (i.id.getD 0) key r = false := by
          simp [updMatch, hno]
        have : (fun r => if updMatch (i.id.getD 0) key r then
            applyFields r (filteredOf i) else r) r = r := by
          simp [hm]
        exact this ▸ List.mem_map_of_mem _ hr

/-- Rows of other orders survive the whole update loop untouched. -/
theorem updatePhase_preserves {oe : Bool} {key : String} {L : List Item}
    {db db2 : Db} {tr : List Stmt}
    (h : updatePhase oe key L db = .ok (db2, tr)) :
    ∀ r ∈ db.rows, ¬ r.order_no = key → r ∈ db2.rows := by
  induction L generalizing db tr with
  | nil =>
    cases h
    intro r hr _
    exact hr
  | cons i rest ih =>
    unfold updatePhase at h
    split at h
    · cases h
    · split at h
      · cases h
      · cases h
        intro r hr hno
        rename_i p1 h1 db2x tr2x h2
        exact ih h2 r (updateOne_preserves h1 r hr hno) hno

/-- Insertion only appends rows; every pre-existing row survives. -/
theorem insertPhase_preserves {key : String} {c : Common} {L : List Item}
    {db : Db} :
    ∀ r ∈ db.rows, r ∈ (insertPhase key c L db).1.rows := by
  induction L generalizing db with
  | nil =>
    intro r hr
    exact hr
  | cons i rest ih =>
    intro r hr
    simp only [insertPhase]
    exact ih r (by simp [hr])

/-- Rows of other orders survive header propagation untouched. -/
theorem propagatePhase_preserves {cond : Bool} {key : String} {c : Common}
    {db : Db} :
    ∀ r ∈ db.rows, ¬ r.order_no = key →
      r ∈ (propagatePhase cond key c db).1.rows := by
  intro r hr hno
  unfold propagatePhase
  split
  · have : (fun r => if r.order_no = key then setCommon c r else r) r = r := by
      simp [hno]
    exact this ▸ List.mem_map_of_mem _ hr
  · exact hr

/-- Case analysis on one whole call: either some step failed and the
call answers the rolled-back state with that error, or the four phases
ran in order and the call commits the propagated state. -/
theorem reconcile_elim (today : Value) (db : Db) (key : String)
    (body : List Item) (P : RunResult → Prop)
    (herr : ∀ e,
      ((e = .orderNoRequired ∧ jsTrim key = "") ∨
        (e = .noData ∧ (sortItems body).isEmpty = true) ∨
        (e = .orderMissing key ∧
          (!orderExistsB db key &&
            ((sortItems body).filter insPred).isEmpty) = true) ∨
        deletePhase (orderExistsB db key) key
          ((sortItems body).filter delPred) db = .error e ∨
        (∃ db1 tr1,
          deletePhase (orderExistsB db key) key
            ((sortItems body).filter delPred) db = .ok (db1, tr1) ∧
          updatePhase (orderExistsB db key) key
            ((sortItems body).filter updPred) db1 = .error e)) →
      P ⟨db, [], .error e⟩)
    (hsucc : ∀ db1 tr1 db2 tr2,
      deletePhase (orderExistsB db key) key
          ((sortItems body).filter delPred) db = .ok (db1, tr1) →
      updatePhase (orderExistsB db key) key
          ((sortItems body).filter updPred) db1 = .ok (db2, tr2) →
      ¬ ((!orderExistsB db key &&
          ((sortItems body).filter insPred).isEmpty) = true) →
      ¬ ((sortItems body).isEmpty = true) →
      P ⟨(propagatePhase
            (orderExistsB db key ||
              !((sortItems body).filter insPred).isEmpty) key
            (computeCommon today (sortItems body))
            (insertPhase key (computeCommon today (sortItems body))
              ((sortItems body).filter insPred) db2).1).1,
          .countByOrder key :: tr1 ++ tr2 ++
            (insertPhase key (computeCommon today (sortItems body))
              ((sortItems body).filter insPred) db2).2 ++
            (propagatePhase
              (orderExistsB db key ||
                !((sortItems body).filter insPred).isEmpty) key
              (computeCommon today (sortItems body))
              (insertPhase key (computeCommon today (sortItems body))
                ((sortItems body).filter insPred) db2).1).2 ++
            [.selectByOrder key],
          .ok ⟨⟨((sortItems body).filter insPred).length,
              ((sortItems body).filter updPred).length,
              ((sortItems body).filter delPred).length⟩,
            selectOrder key
              (propagatePhase
                (orderExistsB db key ||
                  !((sortItems body).filter insPred).isEmpty) key
                (computeCommon today (sortItems body))
                (insertPhase key (computeCommon today (sortItems body))
                  ((sortItems body).filter insPred) db2).1).1⟩⟩) :
    P (reconcile today db key body) := by
  simp only [reconcile]
  by_cases h1 : jsTrim key = ""
  · simp only [if_pos h1]
    exact herr _ (Or.inl ⟨rfl, h1⟩)
  simp only [if_neg h1]
  by_cases h2 : (sortItems body).isEmpty = true
  · simp only [if_pos h2]
    exact herr _ (Or.inr (Or.inl ⟨rfl, h2⟩))
  simp only [if_neg h2]
  by_cases h3 : (!orderExistsB db key &&
      ((sortItems body).filter insPred).isEmpty) = true
  · simp only [if_pos h3]
    exact herr _ (Or.inr (Or.inr (Or.inl ⟨rfl, h3⟩)))
  simp only [if_neg h3]
  rcases hdel : deletePhase (orderExistsB db key) key
      ((sortItems body).filter delPred) db with e | ⟨db1, tr1⟩
  · simp only [hdel]
    exact herr e (Or.inr (Or.inr (Or.inr (Or.inl hdel))))
  simp only [hdel]
  rcases hupd : updatePhase (orderExistsB db key) key
      ((sortItems body).filter updPred) db1 with e | ⟨db2, tr2⟩
  · simp only [hupd]
    exact herr e (Or.inr (Or.inr (Or.inr (Or.inr ⟨db1, tr1, hdel, hupd⟩))))
  simp only [hupd]
  exact hsucc db1 tr1 db2 tr2 hdel hupd h3 h2

/-- The whole call never touches a row of a different order: whatever
the outcome, such a row is still present afterwards. -/
theorem reconcile_preserves_other (today : Value) (db : Db) (key : String)
    (body : List Item) :
    ∀ r ∈ db.rows, ¬ r.order_no = key →
      r ∈ (reconcile today db key body).db.rows := by
  intro r hr hno
  refine reconcile_elim today db key body
    (fun R => r ∈ R.db.rows) (fun e _ => hr) ?_
  intro db1 tr1 db2 tr2 hdel hupd _ _
  exact propagatePhase_preserves r
    (insertPhase_preserves r (updatePhase_preserves hupd r
      (deletePhase_preserves hdel r hr hno) hno)) hno

end TestHandler

namespace TestHandler

/-- With no pre-existing order, the deletion step skips verification and
issues at most the plain DELETE. -/
theorem deletePhase_false_spec (key : String) (td : List Item) (db : Db) :
    deletePhase false key td db =
      if td.isEmpty then .ok (db, [])
      else .ok (applyDelete (deleteIds td) key db,
        [.deleteByIds (deleteIds td) key]) := by
  unfold deletePhase
  split <;> rfl

/-- With no pre-existing order, the per-item verification is skipped. -/
theorem checkItem_false (key : String) (id : Nat) (db : Db) :
    checkItem false key id db = .ok [] := rfl

/-- With no pre-existing order, a successful update iteration issues at
most the plain UPDATE — never a verification lookup. -/
theorem updateOne_false_no_verify {key : String} {i : Item} {db db1 : Db}
    {tr : List Stmt} (h : updateOne false key i db = .ok (db1, tr)) :
    ∀ s ∈ tr, isVerifyStmt s = false := by
  unfold updateOne at h
  rw [checkItem_false] at h
  split at h
  · rename_i e heq
    cases heq
  · rename_i tr0 heq
    cases heq
    split at h
    · cases h
      intro s hs
      simp at hs
    · split at h
      · cases h
      · cases h
        intro s hs
        simp at hs
        subst hs
        rfl

/-- With no pre-existing order, an update iteration can fail only with
the zero-rows-affected error. -/
theorem updateOne_false_error {key : String} {i : Item} {db : Db} {e : Err}
    (h : updateOne false key i db = .error e) :
    ∃ id k, e = .noRecordForUpdate id k := by
  unfold updateOne at h
  rw [checkItem_false] at h
  split at h
  · rename_i e0 heq
    cases heq
  · rename_i tr0 heq
    cases heq
    split at h
    · cases h
    · split at h
      · cases h
        exact ⟨_, _, rfl⟩
      · cases h

/-- With no pre-existing order, no statement of a successful update loop
is a verification lookup. -/
theorem updatePhase_false_no_verify {key : String} {L : List Item}
    {db db2 : Db} {tr : List Stmt}
    (h : updatePhase false key L db = .ok (db2, tr)) :
    ∀ s ∈ tr, isVerifyStmt s = false := by
  induction L generalizing db tr with
  | nil =>
    cases h
    intro s hs
    simp at hs
  | cons i rest ih =>
    unfold updatePhase at h
    split at h
    · cases h
    · split at h
      · cases h
      · cases h
        intro s hs
        rename_i p1 h1 db2x tr2x h2
        rcases List.mem_append.mp hs with hs1 | hs2
        · exact updateOne_false_no_verify h1 s hs1
        · exact ih h2 s hs2

/-- With no pre-existing order, the update loop can fail only with the
zero-rows-affected error. -/
theorem updatePhase_false_error {key : String} {L : List Item} {db : Db}
    {e : Err} (h : updatePhase false key L db = .error e) :
    ∃ id k, e = .noRecordForUpdate id k := by
  induction L generalizing db with
  | nil => cases h
  | cons i rest ih =>
    unfold updatePhase at h
    split at h
    · cases h
      rename_i h1
      exact updateOne_false_error h1
    · split at h
      · cases h
        rename_i p1 h1 h2
        exact ih h2
      · cases h

/-- Insertion issues only INSERT statements. -/
theorem insertPhase_no_verify (key : String) (c : Common) (L : List Item)
    (db : Db) :
    ∀ s ∈ (insertPhase key c L db).2, isVerifyStmt s = false := by
  induction L generalizing db with
  | nil =>
    intro s hs
    simp [insertPhase] at hs
  | cons i rest ih =>
    intro s hs
    simp only [insertPhase, List.mem_cons] at hs
    rcases hs with rfl | hs
    · rfl
    · exact ih _ s hs

/-- Propagation issues only the common-fields UPDATE. -/
theorem propagatePhase_no_verify (cond : Bool) (key : String) (c : Common)
    (db : Db) :
    ∀ s ∈ (propagatePhase cond key c db).2, isVerifyStmt s = false := by
  intro s hs
  unfold propagatePhase at hs
  split at hs
  · simp at hs
    subst hs
    rfl
  · simp at hs

end TestHandler

/-- C10: when the order does not exist in storage, the test.js handler
performs none of the per-id verification lookups (the delete-ownership
SELECT and the update-item existence SELECT run only under the
`orderExists` condition); consequently it can never fail with the
delete-verification, missing-item or cross-order errors, and rows
belonging to other orders survive the call (delete items naming them
match zero rows). -/
theorem c10_no_verification_when_order_absent (today : Value) (db : Db)
    (key : String) (body : List Item)
    (hex : TestHandler.orderExistsB db key = false) :
    (∀ s ∈ (TestHandler.reconcile today db key body).trace,
      isVerifyStmt s = false) ∧
    (∀ ids k, (TestHandler.reconcile today db key body).result ≠
      .error (.cannotDelete ids k)) ∧
    (∀ id, (TestHandler.reconcile today db key body).result ≠
      .error (.itemNotFound id)) ∧
    (∀ id f k, (TestHandler.reconcile today db key body).result ≠
      .error (.crossOrder id f k)) ∧
    (∀ r ∈ db.rows, ¬ r.order_no = key →
      r ∈ (TestHandler.reconcile today db key body).db.rows) := by
  refine TestHandler.reconcile_elim today db key body
    (fun R => (∀ s ∈ R.trace, isVerifyStmt s = false) ∧
      (∀ ids k, R.result ≠ .error (.cannotDelete ids k)) ∧
      (∀ id, R.result ≠ .error (.itemNotFound id)) ∧
      (∀ id f k, R.result ≠ .error (.crossOrder id f k)) ∧
      (∀ r ∈ db.rows, ¬ r.order_no = key → r ∈ R.db.rows)) ?_ ?_
  · -- error outcome
    intro e hsrc
    have hkind : ∃ id k, e = Err.noRecordForUpdate id k ∨
        e = .orderNoRequired ∨ e = .noData ∨ e = .orderMissing key := by
      rcases hsrc with ⟨rfl, _⟩ | ⟨rfl, _⟩ | ⟨rfl, _⟩ | hdel |
        ⟨db1, tr1, hdel, hupd⟩
      · exact ⟨0, key, Or.inr (Or.inl rfl)⟩
      · exact ⟨0, key, Or.inr (Or.inr (Or.inl rfl))⟩
      · exact ⟨0, key, Or.inr (Or.inr (Or.inr rfl))⟩
      · rw [hex, TestHandler.deletePhase_false_spec] at hdel
        split at hdel <;> cases hdel
      · rw [hex] at hupd
        rcases TestHandler.updatePhase_false_error hupd with ⟨id, k, rfl⟩
        exact ⟨id, k, Or.inl rfl⟩
    refine ⟨?_, ?_, ?_, ?_, ?_⟩
    · intro s hs
      simp at hs
    · intro ids k hcon
      simp at hcon
      rcases hkind with ⟨id0, k0, rfl | rfl | rfl | rfl⟩ <;> cases hcon
    · intro id hcon
      simp at hcon
      rcases hkind with ⟨id0, k0, rfl | rfl | rfl | rfl⟩ <;> cases hcon
    · intro id f k hcon
      simp at hcon
      rcases hkind with ⟨id0, k0, rfl | rfl | rfl | rfl⟩ <;> cases hcon
    · intro r hr _
      exact hr
  · -- success outcome
    intro db1 tr1 db2 tr2 hdel hupd hguard hne
    rw [hex] at hdel hupd
    refine ⟨?_, ?_, ?_, ?_, ?_⟩
    · intro s hs
      simp only [List.mem_cons, List.mem_append, List.mem_singleton] at hs
      rcases hs with ((((rfl | h1) | h2) | h3) | h4) | (rfl | hfalse)
      · rfl
      · -- delete trace
        rw [TestHandler.deletePhase_false_spec] at hdel
        split at hdel <;> cases hdel <;> simp at h1
        subst h1
        rfl
      · exact TestHandler.updatePhase_false_no_verify hupd s h2
      · exact TestHandler.insertPhase_no_verify key _ _ _ s h3
      · exact TestHandler.propagatePhase_no_verify _ key _ _ s h4
      · rfl
      · simp at hfalse
    · intro ids k hcon
      cases hcon
    · intro id hcon
      cases hcon
    · intro id f k hcon
      cases hcon
    · intro r hr hno
      refine TestHandler.propagatePhase_preserves r
        (TestHandler.insertPhase_preserves r
          (TestHandler.updatePhase_preserves hupd r ?_ hno)) hno
      exact TestHandler.deletePhase_preserves hdel r hr hno

/-- Witness for C10 at a concrete call: order `"B"` absent, one insert
and a delete naming foreign id 1 — no verification statement is issued
and the foreign row survives. -/
theorem c10_no_verification_witness :
    TestHandler.orderExistsB dbA "B" = false ∧
      isVerifyStmt (Stmt.deleteByIds [1] "B") = false ∧
      (TestHandler.reconcile today0 dbA "B" [insItem, delItem1]).result ≠
        .error (.cannotDelete [1] "B") ∧
      mkRow 1 "A" ∈ (TestHandler.reconcile today0 dbA "B"
        [insItem, delItem1]).db.rows :=
  ⟨by decide,
    (c10_no_verification_when_order_absent today0 dbA "B"
      [insItem, delItem1] (by decide)).1 _ (by decide),
    (c10_no_verification_when_order_absent today0 dbA "B"
      [insItem, delItem1] (by decide)).2.1 [1] "B",
    (c10_no_verification_when_order_absent today0 dbA "B"
      [insItem, delItem1] (by decide)).2.2.2.2 (mkRow 1 "A") (by decide)
      (by decide)⟩

namespace TestHandler

/-- The ids the verification reports missing: requested minus found. -/
def missingIds (body : List Item) (key : String) (db : Db) : List Nat :=
  (deleteIds (toDeleteOf body)).filter
    (fun i =>
      !((foundRows (deleteIds (toDeleteOf body)) key db).map (·.id)).contains
        i)

end TestHandler

/-- C4 (amended): when the order exists, a non-empty delete set is
verified with a single lookup over the whole id set before anything is
deleted, and a count mismatch makes the whole call fail with the error
naming the computed missing ids, with the database untouched — no
deletion is applied to any of the ids, verified or not.  (When the order
does not exist the verification is skipped entirely, cf. the
counterexample.) -/
theorem c4_delete_verification (today : Value) (db : Db) (key : String)
    (body : List Item)
    (hkey : ¬ jsTrim key = "")
    (hex : TestHandler.orderExistsB db key = true)
    (hne : (TestHandler.toDeleteOf body).isEmpty = false)
    (hmis : (TestHandler.foundRows
        (TestHandler.deleteIds (TestHandler.toDeleteOf body)) key db).length
      ≠ (TestHandler.deleteIds (TestHandler.toDeleteOf body)).length) :
    TestHandler.reconcile today db key body =
      ⟨db, [], .error (.cannotDelete (TestHandler.missingIds body key db)
        key)⟩ := by
  have hdel : TestHandler.deletePhase (TestHandler.orderExistsB db key) key
      ((TestHandler.sortItems body).filter TestHandler.delPred) db =
      .error (.cannotDelete (TestHandler.missingIds body key db) key) := by
    rw [hex]
    unfold TestHandler.deletePhase
    rw [if_neg (by
      show ¬ (TestHandler.toDeleteOf body).isEmpty = true
      rw [hne]; simp)]
    rw [if_pos rfl]
    rw [if_neg (by exact hmis)]
    rfl
  have hso : ¬ (TestHandler.sortItems body).isEmpty = true := by
    intro hcon
    have h0 : TestHandler.sortItems body = [] := by
      cases h : TestHandler.sortItems body with
      | nil => rfl
      | cons a l => rw [h] at hcon; simp at hcon
    have : (TestHandler.toDeleteOf body).isEmpty = true := by
      unfold TestHandler.toDeleteOf
      rw [h0]
      rfl
    rw [hne] at this
    cases this
  unfold TestHandler.reconcile
  rw [if_neg hkey, if_neg hso]
  rw [if_neg (by rw [hex]; simp)]
  rw [hdel]

/-- Witness for C4 at a concrete mismatch: deleting id 2 from order
`"A"`, which only has row 1, fails naming id 2 and changes nothing. -/
theorem c4_delete_verification_witness :
    TestHandler.orderExistsB dbA "A" = true ∧
      TestHandler.reconcile today0 dbA "A" [⟨some 2, true, []⟩] =
        ⟨dbA, [], .error (.cannotDelete [2] "A")⟩ :=
  ⟨by decide,
    c4_delete_verification today0 dbA "A" [⟨some 2, true, []⟩]
      (by decide) (by decide) (by decide) (by decide)⟩

/-- C9 (amended): the two handlers are not equivalent (see the
counterexample: one fails where the other succeeds), but they partition
the body identically, so whenever both succeed on the same input they
report the same inserted/updated/deleted counts. -/
theorem c9_counts_agree (tod : Option Value → Value) (todayD today : Value)
    (db : Db) (key : String) (body : List Item) (o1 o2 : Outcome)
    (h1 : (TestHandler.reconcile today db key body).result = .ok o1)
    (h2 : (RoutesHandler.reconcile tod todayD db key body).2 = .ok o2) :
    o1.counts = o2.counts := by
  have hT : o1.counts =
      ⟨((TestHandler.sortItems body).filter TestHandler.insPred).length,
        ((TestHandler.sortItems body).filter TestHandler.updPred).length,
        ((TestHandler.sortItems body).filter TestHandler.delPred).length⟩ := by
    revert h1
    refine TestHandler.reconcile_elim today db key body
      (fun R => R.result = .ok o1 → o1.counts = _) ?_ ?_
    · intro e _ hcon
      cases hcon
    · intro db1 tr1 db2 tr2 _ _ _ _ hok
      cases hok
      rfl
  have hR : o2.counts =
      ⟨((TestHandler.sortItems body).filter TestHandler.insPred).length,
        ((TestHandler.sortItems body).filter TestHandler.updPred).length,
        ((TestHandler.sortItems body).filter TestHandler.delPred).length⟩ := by
    simp only [RoutesHandler.reconcile] at h2
    split at h2
    · simp at h2
    · split at h2
      · simp at h2
      · split at h2
        · simp at h2
        · simp at h2
          rw [← h2]
  rw [hT, hR]

/-- Witness for C9's amended statement: on a no-op update batch both
handlers succeed and report the same counts. -/
theorem c9_counts_agree_witness :
    (Counts.mk 0 1 0) = (Counts.mk 0 1 0) :=
  c9_counts_agree (fun ov => ov.getD Value.null) Value.null today0 dbA "A"
    [itemOfRow (mkRow 1 "A")]
    ⟨⟨0, 1, 0⟩, [mkRow 1 "A"]⟩ ⟨⟨0, 1, 0⟩, [mkRow 1 "A"]⟩
    (by decide) (by decide)

namespace TestHandler

/-- The verification SELECT contributes no UPDATE statement. -/
theorem checkItem_ok_ids {oe : Bool} {key : String} {id : Nat} {db : Db}
    {tr0 : List Stmt} (h : checkItem oe key id db = .ok tr0) :
    updateIdsOf tr0 = [] := by
  unfold checkItem at h
  split at h
  · split at h
    · cases h
    · split at h
      · cases h
        rfl
      · cases h
  · cases h
    rfl

/-- The UPDATE ids of one update iteration: the item's id when a
statement was issued, nothing when the item was skipped. -/
theorem updateOne_updateIds {oe : Bool} {key : String} {i : Item}
    {db db1 : Db} {tr : List Stmt}
    (h : updateOne oe key i db = .ok (db1, tr)) :
    updateIdsOf tr =
      if (filteredOf i).isEmpty then [] else [i.id.getD 0] := by
  unfold updateOne at h
  split at h
  · cases h
  · rename_i tr0 heq
    split at h
    · cases h
      rw [if_pos (by assumption)]
      exact checkItem_ok_ids heq
    · split at h
      · cases h
      · cases h
        rw [if_neg (by assumption)]
        have hc := checkItem_ok_ids heq
        unfold updateIdsOf at hc ⊢
        rw [List.filterMap_append, hc]
        rfl

/-- The UPDATE ids of the whole loop: the ids of the non-skipped items,
in list order. -/
theorem updatePhase_updateIds {oe : Bool} {key : String} {L : List Item}
    {db db2 : Db} {tr : List Stmt}
    (h : updatePhase oe key L db = .ok (db2, tr)) :
    updateIdsOf tr =
      (L.filter (fun i => !(filteredOf i).isEmpty)).map
        (fun i => i.id.getD 0) := by
  induction L generalizing db tr with
  | nil =>
    cases h
    rfl
  | cons i rest ih =>
    unfold updatePhase at h
    split at h
    · cases h
    · split at h
      · cases h
      · cases h
        rename_i p1 h1 db2x tr2x h2
        unfold updateIdsOf at *
        rw [List.filterMap_append]
        have hu := updateOne_updateIds h1
        unfold updateIdsOf at hu
        rw [hu, ih h2, List.filter_cons]
        cases hf : (filteredOf i).isEmpty <;> simp [hf]

/-- The deletion step contributes no UPDATE statement. -/
theorem deletePhase_updateIds {oe : Bool} {key : String} {td : List Item}
    {db db1 : Db} {tr : List Stmt}
    (h : deletePhase oe key td db = .ok (db1, tr)) :
    updateIdsOf tr = [] := by
  unfold deletePhase at h
  split at h
  · cases h
    rfl
  · split at h
    · split at h
      · cases h
        rfl
      · cases h
    · cases h
      rfl

/-- Insertion contributes no UPDATE statement. -/
theorem insertPhase_updateIds (key : String) (c : Common) (L : List Item)
    (db : Db) : updateIdsOf (insertPhase key c L db).2 = [] := by
  induction L generalizing db with
  | nil => rfl
  | cons i rest ih =>
    simp only [insertPhase]
    unfold updateIdsOf at *
    simp only [List.filterMap_cons]
    exact ih _

/-- Propagation contributes no UPDATE statement. -/
theorem propagatePhase_updateIds (cond : Bool) (key : String) (c : Common)
    (db : Db) : updateIdsOf (propagatePhase cond key c db).2 = [] := by
  unfold propagatePhase
  split <;> rfl

end TestHandler

/-- `updateIdsOf` distributes over concatenation. -/
theorem updateIdsOf_append (a b : List Stmt) :
    updateIdsOf (a ++ b) = updateIdsOf a ++ updateIdsOf b :=
  List.filterMap_append a b _

/-- The initial COUNT lookup carries no UPDATE id. -/
theorem updateIdsOf_cons_count (key : String) (l : List Stmt) :
    updateIdsOf (.countByOrder key :: l) = updateIdsOf l := rfl

/-- The final SELECT carries no UPDATE id. -/
theorem updateIdsOf_select (key : String) :
    updateIdsOf [.selectByOrder key] = [] := rfl

/-- C7 (amended): the handler first sorts the submitted items by
ascending id (missing ids count as 0), so the UPDATE statements of any
call are issued in ascending persisted-id order — not in submission
order; the insert items all share the sort key 0, so the stable sort
keeps them in submission order and the k-th INSERT statement corresponds
to the k-th submitted insert item. -/
theorem c7_processing_order (today : Value) (db : Db) (key : String)
    (body : List Item) :
    (updateIdsOf (TestHandler.reconcile today db key body).trace).Pairwise
      (· ≤ ·) ∧
    TestHandler.toInsertOf body = body.filter TestHandler.insPred := by
  constructor
  · refine TestHandler.reconcile_elim today db key body
      (fun R => (updateIdsOf R.trace).Pairwise (· ≤ ·)) ?_ ?_
    · intro e _
      simp [updateIdsOf]
    · intro db1 tr1 db2 tr2 hdel hupd _ _
      have h1 := TestHandler.deletePhase_updateIds hdel
      have h2 := TestHandler.updatePhase_updateIds hupd
      have h3 := TestHandler.insertPhase_updateIds key
        (TestHandler.computeCommon today (TestHandler.sortItems body))
        ((TestHandler.sortItems body).filter TestHandler.insPred) db2
      have h4 := TestHandler.propagatePhase_updateIds
        (TestHandler.orderExistsB db key ||
          !((TestHandler.sortItems body).filter
            TestHandler.insPred).isEmpty) key
        (TestHandler.computeCommon today (TestHandler.sortItems body))
        (TestHandler.insertPhase key
          (TestHandler.computeCommon today (TestHandler.sortItems body))
          ((TestHandler.sortItems body).filter TestHandler.insPred) db2).1
      show (updateIdsOf (.countByOrder key :: (_ ++ _ ++ _ ++ _ ++
        [.selectByOrder key]))).Pairwise (· ≤ ·)
      rw [updateIdsOf_cons_count, updateIdsOf_append, updateIdsOf_append,
        updateIdsOf_append, updateIdsOf_append, h1, h2, h3, h4,
        updateIdsOf_select]
      simp only [List.nil_append, List.append_nil]
      have hsorted : KeySorted Item.idKey
          (((TestHandler.sortItems body).filter TestHandler.updPred).filter
            (fun i => !(TestHandler.filteredOf i).isEmpty)) :=
        ((sortByKey_keySorted Item.idKey body).filter _).filter _
      rw [List.pairwise_map]
      exact hsorted.imp (fun hab => hab)
  · unfold TestHandler.toInsertOf TestHandler.sortItems
    rw [filter_sortByKey]
    apply sortByKey_of_zero
    intro b hb
    have hp : TestHandler.insPred b = true := (List.mem_filter.mp hb).2
    have : b.hasId = false := by
      revert hp
      unfold TestHandler.insPred
      cases b.hasId <;> simp
    unfold Item.idKey
    revert this
    unfold Item.hasId
    cases hid : b.id with
    | none => intro _; rfl
    | some n =>
      intro hn
      simp at hn
      simp [hn]

/-- Writing a row's own common fields back to it changes nothing. -/
theorem setCommon_commonsOf (r : Row) : setCommon (commonsOf r) r = r := rfl

/-- A fold of assignments that each fix the row fixes the row. -/
theorem applyFields_self_of (r : Row) (kvs : List (String × Value))
    (h : ∀ kv ∈ kvs, applyField r kv.1 kv.2 = r) : applyFields r kvs = r := by
  induction kvs with
  | nil => rfl
  | cons kv rest ih =>
    have h1 : applyField r kv.1 kv.2 = r := h kv (by simp)
    simp only [applyFields, List.foldl_cons, h1]
    exact ih (fun kv hm => h kv (by simp [hm]))

/-- Every assignment drawn from a row's own field list writes the value
the row already has. -/
theorem applyField_mem_itemOfRow (r : Row) :
    ∀ kv ∈ (itemOfRow r).fields, applyField r kv.1 kv.2 = r := by
  intro kv hm
  simp only [itemOfRow, List.mem_cons, List.not_mem_nil, or_false] at hm
  rcases hm with rfl | rfl | rfl | rfl | rfl | rfl | rfl | rfl | rfl | rfl |
    rfl | rfl | rfl | rfl | rfl | rfl | rfl | rfl | rfl | rfl | rfl | rfl |
    rfl | rfl | rfl | rfl | rfl | rfl | rfl | rfl | rfl | rfl | rfl | rfl <;>
    rfl

/-- Re-submitting a row's own values as an update leaves it unchanged. -/
theorem applyFields_itemOfRow (r : Row) :
    applyFields r (TestHandler.filteredOf (itemOfRow r)) = r :=
  applyFields_self_of r _
    (fun kv hm => applyField_mem_itemOfRow r kv (List.mem_of_mem_filter hm))

/-- A list whose members are all fixed points maps to itself. -/
theorem map_id_of_mem {α : Type} {f : α → α} {l : List α}
    (h : ∀ a ∈ l, f a = a) : l.map f = l := by
  rw [List.map_congr_left h]
  exact List.map_id l

/-- With distinct ids, the id lookup finds exactly the stored row. -/
theorem find?_eq_of_nodup {rows : List Row} {r : Row}
    (hnodup : (rows.map Row.id).Nodup) (hr : r ∈ rows) :
    rows.find? (fun x => decide (x.id = r.id)) = some r := by
  induction rows with
  | nil => cases hr
  | cons a l ih =>
    rcases List.mem_cons.mp hr with rfl | hr'
    · rw [List.find?_cons_of_pos _ (by simp)]
    · rw [List.map_cons, List.nodup_cons] at hnodup
      by_cases hid : a.id = r.id
      · exfalso
        have : r.id ∈ l.map Row.id := List.mem_map_of_mem Row.id hr'
        rw [← hid] at this
        exact hnodup.1 this
      · rw [List.find?_cons_of_neg _ (by simpa using hid)]
        exact ih hnodup.2 hr'

/-- The common fields computed when the priority item restates a stored
row with a nonzero id are that row's own common fields. -/
theorem computeCommon_itemOfRow (today : Value) (r : Row)
    (vs : List Item) (h : ¬ r.id = 0) :
    TestHandler.computeCommon today (itemOfRow r :: vs) = commonsOf r := by
  have hval : TestHandler.validPred (itemOfRow r) = true := rfl
  have hid : Item.hasId (itemOfRow r) = true := by
    simp [Item.hasId, itemOfRow, h]
  unfold TestHandler.computeCommon
  simp only [List.filter_cons, hval, if_pos]
  rw [List.find?_cons_of_pos _ hid]
  rfl

/-- The rows of one order, in storage order. -/
def rowsOf (db : Db) (key : String) : List Row :=
  db.rows.filter (fun r => decide (r.order_no = key))

namespace TestHandler

/-- An update iteration fed a stored row's own data passes every check,
issues its UPDATE, and leaves the database unchanged. -/
theorem updateOne_itemOfRow (key : String) {db : Db} {r : Row}
    (hnodup : (db.rows.map Row.id).Nodup)
    (hr : r ∈ db.rows) (hkey : r.order_no = key) :
    updateOne true key (itemOfRow r) db =
      .ok (db, [.checkItemOrder r.id,
        .updateById r.id (filteredOf (itemOfRow r)) key]) := by
  have hchk : checkItem true key ((itemOfRow r).id.getD 0) db =
      .ok [.checkItemOrder r.id] := by
    show checkItem true key r.id db = _
    unfold checkItem
    rw [if_pos rfl, find?_eq_of_nodup hnodup hr]
    show (if r.order_no = key then
        (Except.ok [Stmt.checkItemOrder r.id] : Except Err (List Stmt))
      else .error (.crossOrder r.id r.order_no key)) = _
    rw [if_pos hkey]
  have hemp : (filteredOf (itemOfRow r)).isEmpty = false := rfl
  have hcnt : ¬ db.rows.countP (updMatch ((itemOfRow r).id.getD 0) key)
      = 0 := by
    have hpos : 0 < db.rows.countP
        (updMatch ((itemOfRow r).id.getD 0) key) :=
      List.countP_pos_iff.mpr ⟨r, hr, by
        show updMatch r.id key r = true
        simp [updMatch, hkey]⟩
    omega
  have happ : applyUpdate ((itemOfRow r).id.getD 0) key
      (filteredOf (itemOfRow r)) db = db := by
    show applyUpdate r.id key _ db = db
    unfold applyUpdate
    have hmap : db.rows.map (fun x => if updMatch r.id key x then
        applyFields x (filteredOf (itemOfRow r)) else x) = db.rows := by
      apply map_id_of_mem
      intro x hx
      by_cases hm : updMatch r.id key x = true
      · have hxid : x.id = r.id := by
          have := hm
          unfold updMatch at this
          simp at this
          exact this.1
        have hxr : x = r :=
          List.inj_on_of_nodup_map hnodup hx hr (by rw [hxid])
        rw [if_pos hm, hxr]
        exact applyFields_itemOfRow r
      · rw [if_neg hm]
    rw [hmap]
  unfold updateOne
  rw [hchk]
  show (if (filteredOf (itemOfRow r)).isEmpty = true then
      Except.ok (db, [Stmt.checkItemOrder r.id])
    else if List.countP (updMatch ((itemOfRow r).id.getD 0) key) db.rows
        = 0 then
      Except.error (Err.noRecordForUpdate ((itemOfRow r).id.getD 0) key)
    else Except.ok
      (applyUpdate ((itemOfRow r).id.getD 0) key (filteredOf (itemOfRow r))
        db,
      [Stmt.checkItemOrder r.id] ++
        [Stmt.updateById ((itemOfRow r).id.getD 0)
          (filteredOf (itemOfRow r)) key])) = _
  rw [if_neg (by simp [hemp]), if_neg hcnt, happ]
  rfl

/-- An update loop fed only stored rows of the order succeeds and leaves
the database unchanged. -/
theorem updatePhase_itemsOfRows (key : String) {db : Db}
    (hnodup : (db.rows.map Row.id).Nodup) :
    ∀ L : List Item,
      (∀ i ∈ L, ∃ r ∈ db.rows, r.order_no = key ∧ i = itemOfRow r) →
      ∃ tr, updatePhase true key L db = .ok (db, tr) := by
  intro L
  induction L with
  | nil => exact fun _ => ⟨[], rfl⟩
  | cons i rest ih =>
    intro h
    obtain ⟨r, hr, hrkey, hieq⟩ := h i (by simp)
    obtain ⟨tr2, htr2⟩ := ih (fun j hj => h j (by simp [hj]))
    subst hieq
    refine ⟨[Stmt.checkItemOrder r.id,
      Stmt.updateById r.id (filteredOf (itemOfRow r)) key] ++ tr2, ?_⟩
    unfold updatePhase
    rw [updateOne_itemOfRow key hnodup hr hrkey]
    show (match updatePhase true key rest db with
      | Except.error e => Except.error e
      | Except.ok (db2, tr2) => Except.ok (db2,
          [Stmt.checkItemOrder r.id,
            Stmt.updateById r.id (filteredOf (itemOfRow r)) key] ++ tr2))
      = _
    rw [htr2]

end TestHandler

/-- C5 (amended): reconciling an order with exactly its persisted rows —
same ids, same field values, no deletion flags — succeeds, leaves the
storage state unchanged, and returns the same rows back sorted by id,
but reports `updated` equal to the number of submitted items (each
id-bearing item is counted as an update even though every written value
is identical), not `updated = 0`; `inserted` and `deleted` are 0.
Hypotheses: the key is non-blank, the order has at least one row, ids
are unique and nonzero, and the order's rows agree on the denormalized
common fields (which every prior reconcile guarantees). -/
theorem c5_noop_roundtrip (today : Value) (db : Db) (key : String)
    (hkey : ¬ jsTrim key = "")
    (hne : rowsOf db key ≠ [])
    (hnodup : (db.rows.map Row.id).Nodup)
    (hnz : ∀ r ∈ db.rows, ¬ r.id = 0)
    (hhdr : ∀ r ∈ db.rows, r.order_no = key → ∀ q ∈ db.rows,
      q.order_no = key → commonsOf r = commonsOf q) :
    (TestHandler.reconcile today db key
        ((rowsOf db key).map itemOfRow)).db = db ∧
    (TestHandler.reconcile today db key
        ((rowsOf db key).map itemOfRow)).result =
      .ok ⟨⟨0, (rowsOf db key).length, 0⟩,
        TestHandler.selectOrder key db⟩ := by
  have hmem : ∀ i ∈ TestHandler.sortItems ((rowsOf db key).map itemOfRow),
      ∃ r ∈ db.rows, r.order_no = key ∧ i = itemOfRow r := by
    intro i hi
    have h0 : i ∈ (rowsOf db key).map itemOfRow :=
      (mem_sortByKey Item.idKey).mp hi
    obtain ⟨r, hrK, hieq⟩ := List.mem_map.mp h0
    have h1 := List.mem_filter.mp hrK
    refine ⟨r, h1.1, ?_, hieq.symm⟩
    simpa using h1.2
  have hflags : ∀ i ∈ TestHandler.sortItems ((rowsOf db key).map itemOfRow),
      i.hasId = true ∧ i.deleted = false := by
    intro i hi
    obtain ⟨r, hr, hk, hieq⟩ := hmem i hi
    subst hieq
    exact ⟨by simp [Item.hasId, itemOfRow, hnz r hr], rfl⟩
  have F3 : (TestHandler.sortItems
      ((rowsOf db key).map itemOfRow)).filter TestHandler.insPred = [] :=
    List.filter_eq_nil_iff.mpr (fun i hi => by
      have h1 := (hflags i hi).1
      simp [TestHandler.insPred, h1])
  have F4 : (TestHandler.sortItems
      ((rowsOf db key).map itemOfRow)).filter TestHandler.delPred = [] :=
    List.filter_eq_nil_iff.mpr (fun i hi => by
      have h2 := (hflags i hi).2
      simp [TestHandler.delPred, h2])
  have F5 : (TestHandler.sortItems
      ((rowsOf db key).map itemOfRow)).filter TestHandler.updPred =
      TestHandler.sortItems ((rowsOf db key).map itemOfRow) :=
    List.filter_eq_self.mpr (fun i hi => by
      simp [TestHandler.updPred, (hflags i hi).1, (hflags i hi).2])
  have hlen : (TestHandler.sortItems
      ((rowsOf db key).map itemOfRow)).length = (rowsOf db key).length := by
    unfold TestHandler.sortItems
    rw [length_sortByKey, List.length_map]
  have F7 : ¬ (TestHandler.sortItems
      ((rowsOf db key).map itemOfRow)).isEmpty = true := by
    intro hcon
    have h0 : TestHandler.sortItems ((rowsOf db key).map itemOfRow) = [] := by
      cases h : TestHandler.sortItems ((rowsOf db key).map itemOfRow) with
      | nil => rfl
      | cons a l => rw [h] at hcon; simp at hcon
    rw [h0] at hlen
    exact hne (List.length_eq_zero.mp hlen.symm)
  have F8 : TestHandler.orderExistsB db key = true := by
    unfold TestHandler.orderExistsB
    rw [List.any_eq_true]
    cases hO : rowsOf db key with
    | nil => exact absurd hO hne
    | cons a l =>
      have ha : a ∈ rowsOf db key := by rw [hO]; simp
      have h1 := List.mem_filter.mp ha
      exact ⟨a, h1.1, h1.2⟩
  obtain ⟨trU, hupdE⟩ :=
    TestHandler.updatePhase_itemsOfRows key hnodup _ hmem
  cases hS : TestHandler.sortItems ((rowsOf db key).map itemOfRow) with
  | nil => exact absurd (by rw [hS]; rfl) F7
  | cons i0 rest0 =>
    obtain ⟨r0, hr0, hr0k, hieq⟩ := hmem i0 (by rw [hS]; simp)
    subst hieq
    have hcomFull : TestHandler.computeCommon today
        (TestHandler.sortItems ((rowsOf db key).map itemOfRow)) =
        commonsOf r0 := by
      rw [hS]
      exact computeCommon_itemOfRow today r0 rest0 (hnz r0 hr0)
    have hpropMap : db.rows.map (fun x => if x.order_no = key then
        setCommon (commonsOf r0) x else x) = db.rows := by
      apply map_id_of_mem
      intro x hx
      by_cases hxk : x.order_no = key
      · rw [if_pos hxk, hhdr r0 hr0 hr0k x hx hxk]
        exact setCommon_commonsOf x
      · rw [if_neg hxk]
    have hprop : TestHandler.propagatePhase true key (commonsOf r0) db =
        (db, [.propagateCommon (commonsOf r0) key]) := by
      unfold TestHandler.propagatePhase
      rw [if_pos rfl, hpropMap]
    refine TestHandler.reconcile_elim today db key
      ((rowsOf db key).map itemOfRow)
      (fun R => R.db = db ∧ R.result =
        .ok ⟨⟨0, (rowsOf db key).length, 0⟩,
          TestHandler.selectOrder key db⟩) ?_ ?_
    · intro e hsrc
      exfalso
      rcases hsrc with ⟨_, hc⟩ | ⟨_, hc⟩ | ⟨_, hc⟩ | hc |
        ⟨db1, tr1, hcok, hc⟩
      · exact hkey hc
      · exact F7 hc
      · rw [F8, F3] at hc
        simp at hc
      · rw [F8, F4] at hc
        rw [show TestHandler.deletePhase true key [] db =
          Except.ok (db, ([] : List Stmt)) from rfl] at hc
        cases hc
      · rw [F8, F4] at hcok
        rw [show TestHandler.deletePhase true key [] db =
          Except.ok (db, ([] : List Stmt)) from rfl] at hcok
        cases hcok
        rw [F8, F5, hupdE] at hc
        cases hc
    · intro db1 tr1 db2 tr2 hdel hupd _ _
      rw [F8, F4] at hdel
      rw [show TestHandler.deletePhase true key [] db =
        Except.ok (db, ([] : List Stmt)) from rfl] at hdel
      cases hdel
      rw [F8, F5, hupdE] at hupd
      cases hupd
      constructor
      · rw [F8, F3, hcomFull]
        rw [show TestHandler.insertPhase key (commonsOf r0) [] db =
          (db, ([] : List Stmt)) from rfl]
        rw [show (true || !(List.isEmpty ([] : List Item))) = true from rfl]
        rw [hprop]
      · rw [F8, F3, F4, F5, hcomFull, hlen]
        rw [show TestHandler.insertPhase key (commonsOf r0) [] db =
          (db, ([] : List Stmt)) from rfl]
        rw [show (true || !(List.isEmpty ([] : List Item))) = true from rfl]
        rw [hprop]
        rfl

/-- Witness for C5's amended statement on a one-row order. -/
theorem c5_noop_roundtrip_witness :
    (TestHandler.reconcile today0 dbA "A"
        ((rowsOf dbA "A").map itemOfRow)).db = dbA ∧
    (TestHandler.reconcile today0 dbA "A"
        ((rowsOf dbA "A").map itemOfRow)).result =
      .ok ⟨⟨0, (rowsOf dbA "A").length, 0⟩,
        TestHandler.selectOrder "A" dbA⟩ :=
  c5_noop_roundtrip today0 dbA "A" (by decide) (by decide) (by decide)
    (by decide) (by decide)

namespace TestHandler

/-- Deletion only removes rows; survivors were already stored. -/
theorem deletePhase_subset {oe : Bool} {key : String} {td : List Item}
    {db db1 : Db} {tr : List Stmt}
    (h : deletePhase oe key td db = .ok (db1, tr)) :
    ∀ x ∈ db1.rows, x ∈ db.rows := by
  unfold deletePhase at h
  split at h
  · cases h
    exact fun x hx => hx
  · split at h
    · split at h
      · cases h
        exact fun x hx => List.mem_of_mem_filter hx
      · cases h
    · cases h
      exact fun x hx => List.mem_of_mem_filter hx

/-- One update iteration only rewrites business fields: every row after
it has the id and order key of a row before it. -/
theorem updateOne_shape {oe : Bool} {key : String} {i : Item}
    {db' dbx : Db} {trx : List Stmt}
    (h : updateOne oe key i db' = .ok (dbx, trx)) :
    ∀ x ∈ dbx.rows, ∃ y ∈ db'.rows, x.id = y.id ∧
      x.order_no = y.order_no := by
  unfold updateOne at h
  split at h
  · cases h
  · split at h
    · cases h
      exact fun x hx => ⟨x, hx, rfl, rfl⟩
    · split at h
      · cases h
      · cases h
        intro x hx
        unfold applyUpdate at hx
        rcases List.mem_map.mp hx with ⟨y, hy, rfl⟩
        by_cases hm : updMatch (i.id.getD 0) key y = true
        · rw [if_pos hm]
          exact ⟨y, hy, applyFields_id _ y, applyFields_order _ y⟩
        · rw [if_neg hm]
          exact ⟨y, hy, rfl, rfl⟩

/-- One update iteration keeps a row with every stored id and order key
present. -/
theorem updateOne_keeps {oe : Bool} {key : String} {i : Item}
    {db' dbx : Db} {trx : List Stmt}
    (h : updateOne oe key i db' = .ok (dbx, trx)) :
    ∀ y ∈ db'.rows, ∃ x ∈ dbx.rows, x.id = y.id ∧
      x.order_no = y.order_no := by
  unfold updateOne at h
  split at h
  · cases h
  · split at h
    · cases h
      exact fun y hy => ⟨y, hy, rfl, rfl⟩
    · split at h
      · cases h
      · cases h
        intro y hy
        by_cases hm : updMatch (i.id.getD 0) key y = true
        · refine ⟨applyFields y (filteredOf i), ?_, applyFields_id _ y,
            applyFields_order _ y⟩
          unfold applyUpdate
          have : (fun r => if updMatch (i.id.getD 0) key r then
              applyFields r (filteredOf i) else r) y =
              applyFields y (filteredOf i) := by simp [hm]
          exact this ▸ List.mem_map_of_mem _ hy
        · refine ⟨y, ?_, rfl, rfl⟩
          unfold applyUpdate
          have : (fun r => if updMatch (i.id.getD 0) key r then
              applyFields r (filteredOf i) else r) y = y := by
            simp [hm]
          exact this ▸ List.mem_map_of_mem _ hy

/-- An update item whose id resolves (through the id-and-key-preserving
shadow of the initial rows) to a row of a different order cannot pass
its iteration: the existence check finds the foreign row and throws. -/
theorem updateOne_cross_fail {key : String} {u : Item} {db db' : Db}
    {r0 : Row}
    (hnodup : (db.rows.map Row.id).Nodup)
    (hr0db : r0 ∈ db.rows)
    (hcorr : ∀ x ∈ db'.rows, ∃ y ∈ db.rows, x.id = y.id ∧
      x.order_no = y.order_no)
    (hpresent : ∃ x ∈ db'.rows, x.id = r0.id)
    (hX : u.id.getD 0 = r0.id)
    (hcross : ¬ r0.order_no = key) :
    ∀ dbx trx, ¬ updateOne true key u db' = .ok (dbx, trx) := by
  intro dbx trx hok
  obtain ⟨x1, hx1, hx1id⟩ := hpresent
  have hsome : (db'.rows.find?
      (fun x => decide (x.id = u.id.getD 0))).isSome := by
    rw [List.find?_isSome]
    exact ⟨x1, hx1, by simp [hx1id, hX]⟩
  obtain ⟨rx, hrx⟩ := Option.isSome_iff_exists.mp hsome
  have hrxmem : rx ∈ db'.rows := List.mem_of_find?_eq_some hrx
  have hrxid : rx.id = u.id.getD 0 := by
    have := List.find?_some hrx
    simpa using this
  obtain ⟨y, hy, hyid, hyord⟩ := hcorr rx hrxmem
  have hyr0 : y = r0 :=
    List.inj_on_of_nodup_map hnodup hy hr0db (by rw [← hyid, hrxid, hX])
  have hrxord : rx.order_no = r0.order_no := by rw [hyord, hyr0]
  have hchk : checkItem true key (u.id.getD 0) db' =
      .error (.crossOrder (u.id.getD 0) rx.order_no key) := by
    unfold checkItem
    rw [if_pos rfl, hrx]
    show (if rx.order_no = key then
        (Except.ok [Stmt.checkItemOrder (u.id.getD 0)] :
          Except Err (List Stmt))
      else .error (.crossOrder (u.id.getD 0) rx.order_no key)) = _
    rw [if_neg (by rw [hrxord]; exact hcross)]
  unfold updateOne at hok
  rw [hchk] at hok
  cases hok

/-- A whole update loop containing such a cross-order item cannot
succeed. -/
theorem updatePhase_cross_fail {key : String} {u : Item} {db : Db}
    {r0 : Row}
    (hnodup : (db.rows.map Row.id).Nodup)
    (hr0db : r0 ∈ db.rows)
    (hX : u.id.getD 0 = r0.id)
    (hcross : ¬ r0.order_no = key) :
    ∀ (L : List Item) (db' : Db), u ∈ L →
      (∀ x ∈ db'.rows, ∃ y ∈ db.rows, x.id = y.id ∧
        x.order_no = y.order_no) →
      (∃ x ∈ db'.rows, x.id = r0.id) →
      ∀ db2 tr2, ¬ updatePhase true key L db' = .ok (db2, tr2) := by
  intro L
  induction L with
  | nil =>
    intro db' hu _ _ _ _ _
    cases hu
  | cons i rest ih =>
    intro db' hu hcorr hpres db2 tr2 hok
    unfold updatePhase at hok
    split at hok
    · cases hok
    · rename_i db1x tr1x h1
      split at hok
      · cases hok
      · rename_i db2y tr2y h2
        cases hok
        rcases List.mem_cons.mp hu with rfl | hur
        · exact updateOne_cross_fail hnodup hr0db hcorr hpres hX hcross
            db1x tr1x h1
        · obtain ⟨x1, hx1, hx1id⟩ := hpres
          obtain ⟨x2, hx2, hx2id, _⟩ := updateOne_keeps h1 x1 hx1
          exact ih db1x hur
            (fun x hx => by
              obtain ⟨y1, hy1, hyid1, hyord1⟩ := updateOne_shape h1 x hx
              obtain ⟨y2, hy2, hyid2, hyord2⟩ := hcorr y1 hy1
              exact ⟨y2, hy2, hyid1.trans hyid2, hyord1.trans hyord2⟩)
            ⟨x2, hx2, hx2id.trans hx1id⟩ _ _ h2

end TestHandler

/-- A two-order database: row 1 belongs to `"A"`, row 5 to `"B"`. -/
def dbAB : Db := ⟨[mkRow 1 "A", mkRow 5 "B"], 6⟩

/-- C3 (amended): when the requested order exists, a reconcile call
containing an update item whose id belongs to a different order always
fails, and the rollback leaves the storage state — in particular the
foreign row — unchanged; when the delete set is empty and the item is
the first update processed, the error is exactly the cross-order error
naming both the found and the requested order keys.  (When the requested
order does not exist the per-id check is skipped and the call may
succeed without touching the row, cf. the counterexample.) -/
theorem c3_cross_order_guard (today : Value) (db : Db) (key : String)
    (body : List Item) (u : Item) (r0 : Row)
    (hkey : ¬ jsTrim key = "")
    (hnodup : (db.rows.map Row.id).Nodup)
    (hex : TestHandler.orderExistsB db key = true)
    (hu : u ∈ body) (hid : u.hasId = true) (hdel : u.deleted = false)
    (hfind : db.rows.find? (fun x => decide (x.id = u.id.getD 0)) =
      some r0)
    (hcross : ¬ r0.order_no = key) :
    ((∃ e, (TestHandler.reconcile today db key body).result = .error e) ∧
      (TestHandler.reconcile today db key body).db = db) ∧
    (TestHandler.toDeleteOf body = [] →
      ∀ rest, TestHandler.toUpdateOf body = u :: rest →
        (TestHandler.reconcile today db key body).result =
          .error (.crossOrder (u.id.getD 0) r0.order_no key)) := by
  have hr0db : r0 ∈ db.rows := List.mem_of_find?_eq_some hfind
  have hX : u.id.getD 0 = r0.id := by
    have := List.find?_some hfind
    simp at this
    exact this.symm
  have huupd : u ∈ (TestHandler.sortItems body).filter
      TestHandler.updPred :=
    List.mem_filter.mpr ⟨(mem_sortByKey Item.idKey).mpr hu,
      by simp [TestHandler.updPred, hid, hdel]⟩
  constructor
  · refine TestHandler.reconcile_elim today db key body
      (fun R => (∃ e, R.result = .error e) ∧ R.db = db)
      (fun e _ => ⟨⟨e, rfl⟩, rfl⟩) ?_
    intro db1 tr1 db2 tr2 hdelE hupdE _ _
    rw [hex] at hupdE
    exact absurd hupdE
      (TestHandler.updatePhase_cross_fail hnodup hr0db hX hcross _ db1
        huupd
        (fun x hx => ⟨x, TestHandler.deletePhase_subset hdelE x hx,
          rfl, rfl⟩)
        ⟨r0, TestHandler.deletePhase_preserves hdelE r0 hr0db hcross,
          rfl⟩
        db2 tr2)
  · intro h0 rest h1
    have h0' : (TestHandler.sortItems body).filter TestHandler.delPred
        = [] := h0
    have h1' : (TestHandler.sortItems body).filter TestHandler.updPred
        = u :: rest := h1
    have hdelV : TestHandler.deletePhase (TestHandler.orderExistsB db key)
        key ((TestHandler.sortItems body).filter TestHandler.delPred) db =
        .ok (db, []) := by
      rw [hex, h0']
      rfl
    have hchk : TestHandler.checkItem true key (u.id.getD 0) db =
        .error (.crossOrder (u.id.getD 0) r0.order_no key) := by
      unfold TestHandler.checkItem
      rw [if_pos rfl, hfind]
      show (if r0.order_no = key then
          (Except.ok [Stmt.checkItemOrder (u.id.getD 0)] :
            Except Err (List Stmt))
        else .error (.crossOrder (u.id.getD 0) r0.order_no key)) = _
      rw [if_neg hcross]
    have honeV : TestHandler.updateOne true key u db =
        .error (.crossOrder (u.id.getD 0) r0.order_no key) := by
      unfold TestHandler.updateOne
      rw [hchk]
    have hupdV : TestHandler.updatePhase (TestHandler.orderExistsB db key)
        key ((TestHandler.sortItems body).filter TestHandler.updPred) db =
        .error (.crossOrder (u.id.getD 0) r0.order_no key) := by
      rw [hex, h1']
      unfold TestHandler.updatePhase
      rw [honeV]
    refine TestHandler.reconcile_elim today db key body
      (fun R => R.result =
        .error (.crossOrder (u.id.getD 0) r0.order_no key)) ?_ ?_
    · intro e hsrc
      rcases hsrc with ⟨_, hc⟩ | ⟨_, hc⟩ | ⟨_, hc⟩ | hc |
        ⟨db1, tr1, hcok, hc⟩
      · exact absurd hc hkey
      · exfalso
        have hnil : TestHandler.sortItems body = [] := by
          cases h : TestHandler.sortItems body with
          | nil => rfl
          | cons a l => rw [h] at hc; simp at hc
        rw [hnil] at h1'
        cases h1'
      · rw [hex] at hc
        simp at hc
      · rw [hdelV] at hc
        cases hc
      · rw [hdelV] at hcok
        cases hcok
        rw [hupdV] at hc
        cases hc
        rfl
    · intro db1 tr1 db2 tr2 hdelE hupdE _ _
      rw [hdelV] at hdelE
      cases hdelE
      rw [hupdV] at hupdE
      cases hupdE

/-- Witness for C3's amended statement: updating id 1 (order `"A"`)
through order `"B"` fails with the error naming both keys and leaves the
database unchanged. -/
theorem c3_cross_order_guard_witness :
    (TestHandler.reconcile today0 dbAB "B" [updItem1]).result =
      .error (.crossOrder 1 "A" "B") ∧
    (TestHandler.reconcile today0 dbAB "B" [updItem1]).db = dbAB :=
  ⟨(c3_cross_order_guard today0 dbAB "B" [updItem1] updItem1
      (mkRow 1 "A") (by decide) (by decide) (by decide) (by decide)
      (by decide) (by decide) (by decide) (by decide)).2 (by decide) []
      (by decide),
    (c3_cross_order_guard today0 dbAB "B" [updItem1] updItem1
      (mkRow 1 "A") (by decide) (by decide) (by decide) (by decide)
      (by decide) (by decide) (by decide) (by decide)).1.2⟩
